import Mathlib

/-! Kubelet tag extraction and the environment provider: a shallow embedding

Embedding of `pkg/tagger/collectors/kubelet_extract.go` (`parsePods`,
`parseDeploymentForReplicaset`).

Conventions of the embedding:

* Go strings are Lean `String`s (valid UTF-8 only).  `len s` is the byte
  length (`String.utf8ByteSize`).  Indices returned by `LastIndexAny` count
  characters; the source only slices at the index of the ASCII separator it
  has just found, where slicing by characters and by bytes give the same
  pieces.
* Go maps (`Labels`, `Annotations`, `labelsAsTags`, `annotationsAsTags`) are
  association lists, iterated in list order.
* Loops that append to a slice are left folds that append to a list.
* Logging calls have no effect on the result and are dropped.
* Declarations that the file uses but that live in other packages are either
  fields of `Deps` (parameters) or definitions marked "Modelled from the spec".
-/

namespace Kubelet

/-! ## Strings -/

/-- Go `len(s)`: the number of bytes of `s`. -/
def len (s : String) : Nat := s.utf8ByteSize

/-- Loop of `strings.LastIndexAny`: `i` is the index of the head of the
remaining input, `acc` the last index found so far (`-1` when none). -/
def lastIndexAnyAux (chars : List Char) : List Char → Nat → Int → Int
  | [], _, acc => acc
  | c :: cs, i, acc => lastIndexAnyAux chars cs (i + 1) (if c ∈ chars then (i : Int) else acc)

/-- Go `strings.LastIndexAny(s, chars)`: the index of the last character of `s`
that occurs in `chars`, or `-1`. -/
def LastIndexAny (s chars : String) : Int :=
  lastIndexAnyAux chars.data s.data 0 (-1)

/-- Go `s[i:]`. -/
def sliceFrom (s : String) (i : Nat) : String := ⟨s.data.drop i⟩

/-- Go `s[:i]`. -/
def sliceTo (s : String) (i : Nat) : String := ⟨s.data.take i⟩

/-- The constant `KubeAllowedEncodeStringAlphaNums` of the source. -/
def KubeAllowedEncodeStringAlphaNums : String := "bcdfghjklmnpqrstvwxz2456789"

/-- The constant `Digits` of the source. -/
def Digits : String := "1234567890"

/-- Modelled from the spec: `utils.StringInRuneset` is not part of the two
source files; section 4.3 step 4 requires the suffix to "consist entirely of
characters from" the given alphabet. -/
def StringInRuneset (str runeset : String) : Bool :=
  str.data.all (fun c => decide (c ∈ runeset.data))

/-- The method `parseDeploymentForReplicaset` of the source. -/
def parseDeploymentForReplicaset (name : String) : String :=
  let lastDash := LastIndexAny name "-"
  if lastDash = -1 then
    ""
  else
    let suffix := sliceFrom name (lastDash + 1).toNat
    if len suffix < 3 then
      ""
    else if (!StringInRuneset suffix Digits) && (!StringInRuneset suffix KubeAllowedEncodeStringAlphaNums) then
      ""
    else
      sliceTo name lastDash.toNat

/-! ## The tag accumulator (`utils.TagList`) -/

/-- Modelled from the spec: the cardinality class of a tag (section 3, "Tag"),
one of Low, High and Auto; the type lives in the package `utils`, which is not
among the source files. -/
inductive Cardinality where
  | Low
  | High
  | Auto
deriving DecidableEq, Repr

/-- Modelled from the spec: a Tag is "a (key, value) pair plus a cardinality
class" (section 3); the accumulator of the package `utils` stores such
entries. -/
structure Tag where
  key : String
  value : String
  card : Cardinality
deriving DecidableEq, Repr

/-- Modelled from the spec: `utils.TagList`, the Cardinality Accumulator of
sections 3 and 4.1.  Entries are kept in the order they were added; entries
with the same key are independent, and duplicates are only removed by
`Compute`. -/
structure TagList where
  tags : List Tag
deriving DecidableEq, Repr

/-- Modelled from the spec: `utils.NewTagList`, "a fresh Accumulator". -/
def NewTagList : TagList := ⟨[]⟩

/-- Modelled from the spec: `TagList.AddLow` appends a Tag of class Low
(section 4.1). -/
def TagList.AddLow (l : TagList) (name value : String) : TagList :=
  ⟨l.tags ++ [⟨name, value, Cardinality.Low⟩]⟩

/-- Modelled from the spec: `TagList.AddHigh` appends a Tag of class High
(section 4.1). -/
def TagList.AddHigh (l : TagList) (name value : String) : TagList :=
  ⟨l.tags ++ [⟨name, value, Cardinality.High⟩]⟩

/-- Modelled from the spec: `TagList.AddAuto` appends a Tag whose class is
resolved later by a naming-convention table external to the core
(section 4.1). -/
def TagList.AddAuto (l : TagList) (name value : String) : TagList :=
  ⟨l.tags ++ [⟨name, value, Cardinality.Auto⟩]⟩

/-- Modelled from the spec: `TagList.Copy` returns an independent accumulator
with the same contents (section 4.1); with value semantics this is a structural
copy. -/
def TagList.Copy (l : TagList) : TagList := ⟨l.tags⟩

/-- Modelled from the spec: a tag is serialized as `key:value` (section 4.1,
`Compute`). -/
def serialize (t : Tag) : String := t.key ++ ":" ++ t.value

/-- Modelled from the spec: the class a stored tag ends up with.  Low and High
tags keep their class; an Auto tag gets the class the external naming-convention
table `autoClass` gives to its key and is dropped when no rule matches
(section 4.1, `AddAuto`). -/
def resolveClass (autoClass : String → Option Cardinality) (t : Tag) : Option Cardinality :=
  match t.card with
  | Cardinality.Low => some Cardinality.Low
  | Cardinality.High => some Cardinality.High
  | Cardinality.Auto =>
    match autoClass t.key with
    | some Cardinality.Low => some Cardinality.Low
    | some Cardinality.High => some Cardinality.High
    | _ => none

/-- Modelled from the spec: the serialized tags of class `c`, deduplicated, in
the order they were added. -/
def tagsOfClass (autoClass : String → Option Cardinality) (c : Cardinality) (l : TagList) :
    List String :=
  ((l.tags.filter (fun t => decide (resolveClass autoClass t = some c))).map serialize).dedup

/-- Modelled from the spec: `TagList.Compute` returns the low-cardinality and
the high-cardinality tag strings, each list deduplicated (section 4.1). -/
def TagList.Compute (autoClass : String → Option Cardinality) (l : TagList) :
    List String × List String :=
  (tagsOfClass autoClass Cardinality.Low l, tagsOfClass autoClass Cardinality.High l)

/-! ## Pod metadata and tag records -/

/-- Modelled from the spec: an Owner Reference `{Kind, Name}` (section 3); the
type `kubelet.PodOwner` is not among the source files. -/
structure PodOwner where
  Kind : String
  Name : String
deriving DecidableEq, Repr

/-- Modelled from the spec: the identity, labels, annotations and owner
references of a pod (section 3, "Pod Metadata"); Go maps are association
lists. -/
structure PodMetadata where
  Name : String
  UID : String
  Namespace : String
  Annotations : List (String × String)
  Labels : List (String × String)
  Owners : List PodOwner
deriving DecidableEq, Repr

/-- Modelled from the spec: an entry of the container spec list (container
name, image reference). -/
structure ContainerSpec where
  Name : String
  Image : String
deriving DecidableEq, Repr

/-- Modelled from the spec: an entry of the container status list (container
id, name). -/
structure ContainerStatus where
  Name : String
  ID : String
deriving DecidableEq, Repr

/-- Modelled from the spec: the pod spec, holding the container spec list. -/
structure Spec where
  Containers : List ContainerSpec
deriving DecidableEq, Repr

/-- Modelled from the spec: the pod status, holding the container status
list. -/
structure Status where
  Containers : List ContainerStatus
deriving DecidableEq, Repr

/-- Modelled from the spec: `kubelet.Pod` (section 3, "Pod Metadata"). -/
structure Pod where
  Spec : Spec
  Status : Status
  Metadata : PodMetadata
deriving DecidableEq, Repr

/-- Modelled from the spec: `Pod.Owners()` returns the ordered sequence of
owner references of the pod. -/
def Pod.Owners (pod : Pod) : List PodOwner := pod.Metadata.Owners

/-- Modelled from the spec: the Tag Record of section 3 (`TagInfo` in the
source, whose declaration is in another file of the package). -/
structure TagInfo where
  Source : String
  Entity : String
  HighCardTags : List String
  LowCardTags : List String
deriving DecidableEq, Repr

/-- The fields of the receiver `KubeletCollector` that `parsePods` reads. -/
structure KubeletCollector where
  labelsAsTags : List (String × String)
  annotationsAsTags : List (String × String)

/-- Declarations of other packages that `parsePods` calls, taken as
parameters: `filepath.Match` (its boolean result), `strings.ToLower`,
`resolveTag`, `containers.SplitImageName`, `kubelet.TrimRuntimeFromCID`,
`kubelet.PodUIDToEntityName`, the constant `kubeletCollectorName`, and the
naming-convention table that gives Auto tags their class. -/
structure Deps where
  Match : String → String → Bool
  ToLower : String → String
  resolveTag : String → String → String
  SplitImageName : String → Except String (String × String × String)
  TrimRuntimeFromCID : String → String
  PodUIDToEntityName : String → String
  kubeletCollectorName : String
  autoClass : String → Option Cardinality

/-! ## `parsePods` -/

/-- Lines 41-47: the loop over the pod labels and the `labelsAsTags` rules. -/
def addLabelTags (d : Deps) (c : KubeletCollector) (tags : TagList)
    (labels : List (String × String)) : TagList :=
  labels.foldl (fun tags label =>
    c.labelsAsTags.foldl (fun tags rule =>
      if d.Match rule.1 (d.ToLower label.1) then
        tags.AddAuto (d.resolveTag rule.2 label.1) label.2
      else tags) tags) tags

/-- Lines 50-54: the loop over the pod annotations. -/
def addAnnotationTags (d : Deps) (c : KubeletCollector) (tags : TagList)
    (annotations : List (String × String)) : TagList :=
  annotations.foldl (fun tags annotation =>
    match c.annotationsAsTags.lookup (d.ToLower annotation.1) with
    | some tagName => tags.AddAuto tagName annotation.2
    | none => tags) tags

/-- Lines 57-62: the two OpenShift annotations. -/
def addOpenShiftTags (tags : TagList) (annotations : List (String × String)) : TagList :=
  let tags :=
    match annotations.lookup "openshift.io/deployment-config.name" with
    | some dc_name => tags.AddLow "oshift_deployment_config" dc_name
    | none => tags
  match annotations.lookup "openshift.io/deployment.name" with
  | some deploy_name => tags.AddHigh "oshift_deployment" deploy_name
  | none => tags

/-- Lines 66-89: the body of the loop over the owners, one `switch` on the
owner kind. -/
def addOwnerTags (tags : TagList) (owner : PodOwner) : TagList :=
  if owner.Kind = "" then tags
  else if owner.Kind = "Deployment" then tags.AddLow "kube_deployment" owner.Name
  else if owner.Kind = "DaemonSet" then tags.AddLow "kube_daemon_set" owner.Name
  else if owner.Kind = "ReplicationController" then
    tags.AddLow "kube_replication_controller" owner.Name
  else if owner.Kind = "StatefulSet" then tags.AddLow "kube_stateful_set" owner.Name
  else if owner.Kind = "Job" then tags.AddHigh "kube_job" owner.Name
  else if owner.Kind = "ReplicaSet" then
    let deployment := parseDeploymentForReplicaset owner.Name
    if len deployment > 0 then
      (tags.AddHigh "kube_replica_set" owner.Name).AddLow "kube_deployment" deployment
    else
      tags.AddLow "kube_replica_set" owner.Name
  else tags

/-- Lines 34-90: the accumulator of a pod after its name, namespace, labels,
annotations and owners have been processed. -/
def podTags (d : Deps) (c : KubeletCollector) (pod : Pod) : TagList :=
  let tags := NewTagList
  let tags := tags.AddHigh "pod_name" pod.Metadata.Name
  let tags := tags.AddLow "kube_namespace" pod.Metadata.Namespace
  let tags := addLabelTags d c tags pod.Metadata.Labels
  let tags := addAnnotationTags d c tags pod.Metadata.Annotations
  let tags := addOpenShiftTags tags pod.Metadata.Annotations
  pod.Owners.foldl addOwnerTags tags

/-- Lines 113-129: the loop over the spec containers, left at the first entry
with the name of the status container. -/
def addImageTags (d : Deps) (cTags : TagList) (container : ContainerStatus) :
    List ContainerSpec → TagList
  | [] => cTags
  | containerSpec :: rest =>
    if containerSpec.Name = container.Name then
      match d.SplitImageName containerSpec.Image with
      | Except.error _ => cTags
      | Except.ok (imageName, shortImage, imageTag) =>
        let cTags := cTags.AddLow "image_name" imageName
        let cTags := cTags.AddLow "short_image" shortImage
        let imageTag := if imageTag = "" then "latest" else imageTag
        cTags.AddLow "image_tag" imageTag
    else addImageTags d cTags container rest

/-- Lines 105-129: the accumulator of a status container, a copy of the pod
accumulator `tags` extended with the container tags. -/
def containerTags (d : Deps) (pod : Pod) (tags : TagList) (container : ContainerStatus) :
    TagList :=
  let cTags := tags.Copy
  let cTags := cTags.AddLow "kube_container_name" container.Name
  let cTags := cTags.AddHigh "container_id" (d.TrimRuntimeFromCID container.ID)
  let cTags :=
    if container.Name ≠ "" ∧ pod.Metadata.Name ≠ "" then
      cTags.AddHigh "display_container_name" (container.Name ++ "_" ++ pod.Metadata.Name)
    else cTags
  addImageTags d cTags container pod.Spec.Containers

/-- Lines 131-137: the record of a status container. -/
def containerInfo (d : Deps) (pod : Pod) (tags : TagList) (container : ContainerStatus) :
    TagInfo :=
  let computed := (containerTags d pod tags container).Compute d.autoClass
  { Source := d.kubeletCollectorName
    Entity := container.ID
    HighCardTags := computed.2
    LowCardTags := computed.1 }

/-- Lines 92-99: the record of the pod itself. -/
def podInfo (d : Deps) (pod : Pod) (tags : TagList) : TagInfo :=
  let computed := tags.Compute d.autoClass
  { Source := d.kubeletCollectorName
    Entity := d.PodUIDToEntityName pod.Metadata.UID
    HighCardTags := computed.2
    LowCardTags := computed.1 }

/-- Lines 33-139: the body of the loop over the pods; `output` is the slice
built so far. -/
def parsePod (d : Deps) (c : KubeletCollector) (output : List TagInfo) (pod : Pod) :
    List TagInfo :=
  let tags := podTags d c pod
  let output := if pod.Metadata.UID ≠ "" then output ++ [podInfo d pod tags] else output
  pod.Status.Containers.foldl (fun output container =>
    output ++ [containerInfo d pod tags container]) output

/-- The method `parsePods` of the source: the records and the error, which is
always `nil` (`none`). -/
def parsePods (d : Deps) (c : KubeletCollector) (pods : List Pod) :
    List TagInfo × Option String :=
  (pods.foldl (parsePod d c) [], none)

/-! ## Sample collaborators, used to evaluate the code on concrete inputs -/

/-- A sample image splitter: the part before the first colon is the image name
and the short image, the part after it the tag; the empty string is refused. -/
def sampleSplit (image : String) : Except String (String × String × String) :=
  if image = "" then Except.error "empty image"
  else
    let name : String := ⟨image.data.takeWhile (fun ch => ch != ':')⟩
    let tag : String := ⟨(image.data.dropWhile (fun ch => ch != ':')).drop 1⟩
    Except.ok (name, name, tag)

/-- Sample collaborators: no label matches, identity lower-casing, container
ids with the prefix `docker://` of length 9 dropped, pod entities prefixed by
`kubernetes_pod://`, collector name `kubelet`, no Auto rule. -/
def sampleDeps : Deps where
  Match := fun _ _ => false
  ToLower := fun s => s
  resolveTag := fun tmpl _ => tmpl
  SplitImageName := sampleSplit
  TrimRuntimeFromCID := fun cid => sliceFrom cid 9
  PodUIDToEntityName := fun uid => "kubernetes_pod://" ++ uid
  kubeletCollectorName := "kubelet"
  autoClass := fun _ => none

/-- A collector without label or annotation rules. -/
def sampleCollector : KubeletCollector := ⟨[], []⟩

/-- The pod of the end-to-end example of the spec (section 8). -/
def nginxPod : Pod where
  Spec := ⟨[⟨"web", "nginx:1.19"⟩]⟩
  Status := ⟨[⟨"web", "docker://c1"⟩]⟩
  Metadata :=
    { Name := "nginx-abc"
      UID := "u1"
      Namespace := "default"
      Annotations := []
      Labels := []
      Owners := [⟨"ReplicaSet", "nginx-7f9c8d6b5"⟩] }


/-- A pod owned by a hand-named ReplicaSet, from whose name no Deployment is
recovered. -/
def standalonePod : Pod where
  Spec := ⟨[]⟩
  Status := ⟨[]⟩
  Metadata :=
    { Name := "standalone-x"
      UID := "u2"
      Namespace := "default"
      Annotations := []
      Labels := []
      Owners := [⟨"ReplicaSet", "standalone-rs"⟩] }

/-- A pod with two ReplicaSet owners, one generated by a Deployment and one
hand-named. -/
def mixedPod : Pod where
  Spec := ⟨[]⟩
  Status := ⟨[]⟩
  Metadata :=
    { Name := "mixed-x"
      UID := "u3"
      Namespace := "default"
      Annotations := []
      Labels := []
      Owners := [⟨"ReplicaSet", "web-7f9"⟩, ⟨"ReplicaSet", "standalone-rs"⟩] }

/-- A pod owned by a Job and a DaemonSet. -/
def jobPod : Pod where
  Spec := ⟨[]⟩
  Status := ⟨[]⟩
  Metadata :=
    { Name := "backup-x"
      UID := "u4"
      Namespace := "ops"
      Annotations := []
      Labels := []
      Owners := [⟨"Job", "backup-1"⟩, ⟨"DaemonSet", "logger"⟩] }

/-- A pod with an empty UID and two status containers; the image of the second
one has no tag and the first one has no spec entry. -/
def noUidPod : Pod where
  Spec := ⟨[⟨"side", "nginx"⟩]⟩
  Status := ⟨[⟨"main", "docker://a1"⟩, ⟨"side", "docker://b2"⟩]⟩
  Metadata :=
    { Name := "orphan"
      UID := ""
      Namespace := "default"
      Annotations := []
      Labels := []
      Owners := [] }

/-- Sample collaborators with a label rule that applies when the pattern is the
label name, and a naming table that resolves every Auto tag as Low. -/
def labelDeps : Deps :=
  { sampleDeps with
    Match := fun pattern name => pattern == name
    autoClass := fun _ => some Cardinality.Low }

/-- A collector with the label rule `app` to `pod_name`. -/
def labelCollector : KubeletCollector := ⟨[("app", "pod_name")], []⟩

/-- A pod named `y` with the label `app` of value `x`. -/
def labelPod : Pod where
  Spec := ⟨[]⟩
  Status := ⟨[]⟩
  Metadata :=
    { Name := "y"
      UID := "u5"
      Namespace := "default"
      Annotations := []
      Labels := [("app", "x")]
      Owners := [] }

/-! ## Predicates used to state invariants of the accumulators -/

/-- The keys that `parsePods` only ever adds with class Low. -/
def lowKeys : List String :=
  ["kube_namespace", "oshift_deployment_config", "kube_deployment", "kube_daemon_set",
    "kube_replication_controller", "kube_stateful_set", "kube_container_name", "image_name",
    "short_image", "image_tag"]

/-- The keys that `parsePods` only ever adds with class High. -/
def highKeys : List String :=
  ["pod_name", "oshift_deployment", "kube_job", "container_id", "display_container_name"]

/-- A tag that `parsePods` adds with a fixed key and class: a Low tag with a key
of `lowKeys`, a High tag with a key of `highKeys`, or `kube_replica_set` for a
ReplicaSet owner of the pod, Low when no Deployment is recovered from the owner
name and High otherwise. -/
def FixedTag (pod : Pod) (t : Tag) : Prop :=
  (t.card = Cardinality.Low ∧ t.key ∈ lowKeys) ∨
  (t.card = Cardinality.High ∧ t.key ∈ highKeys) ∨
  (t.key = "kube_replica_set" ∧ (⟨"ReplicaSet", t.value⟩ : PodOwner) ∈ pod.Owners ∧
    ((t.card = Cardinality.Low ∧ parseDeploymentForReplicaset t.value = "") ∨
      (t.card = Cardinality.High ∧ parseDeploymentForReplicaset t.value ≠ "")))

/-- An entry of an accumulator is an Auto tag, which needs a label or annotation
rule of the collector, or a tag with a fixed key and class. -/
def AutoOrFixed (c : KubeletCollector) (pod : Pod) (t : Tag) : Prop :=
  (t.card = Cardinality.Auto ∧ ¬ (c.labelsAsTags = [] ∧ c.annotationsAsTags = [])) ∨
  FixedTag pod t

/-- A pod whose spec list has two entries named `web`: the image of the first
one is refused by the sample splitter, the image of the second one is not. -/
def brokenImagePod : Pod where
  Spec := ⟨[⟨"web", ""⟩, ⟨"web", "nginx:1.19"⟩]⟩
  Status := ⟨[⟨"web", "docker://c9"⟩]⟩
  Metadata :=
    { Name := "broken"
      UID := "u6"
      Namespace := "default"
      Annotations := []
      Labels := []
      Owners := [] }

/-- A pod owned by a ReplicaSet whose name is a dash followed by a valid
suffix. -/
def dashPod : Pod where
  Spec := ⟨[]⟩
  Status := ⟨[]⟩
  Metadata :=
    { Name := "dash-x"
      UID := "u7"
      Namespace := "default"
      Annotations := []
      Labels := []
      Owners := [⟨"ReplicaSet", "-bcd"⟩] }

end Kubelet

/-! # The environment configuration provider

Embedding of `pkg/autodiscovery/providers/env.go` (`EnvProvider.Collect`).
`strings.TrimSpace` and `unicode.IsSpace` are the functions of the Go standard
library; the configuration lookup `config.Datadog.GetString` and the constant
`EnvironmentVariable`, declared elsewhere, are the fields of `Env`. -/

namespace Providers

/-- The constant `name` of the source. -/
def name : String := "dd_logs_config_custom_configs"

/-- Go `unicode.IsSpace`: the white space characters of Unicode. -/
def IsSpace (r : Char) : Bool :=
  let n := r.toNat
  (9 ≤ n && n ≤ 13) || n == 32 || n == 0x85 || n == 0xA0 || n == 0x1680 ||
    (0x2000 ≤ n && n ≤ 0x200a) || n == 0x2028 || n == 0x2029 || n == 0x202f ||
    n == 0x205f || n == 0x3000

/-- Go `strings.TrimLeftFunc`. -/
def TrimLeftFunc (s : String) (f : Char → Bool) : String := ⟨s.data.dropWhile f⟩

/-- Go `strings.TrimRightFunc`. -/
def TrimRightFunc (s : String) (f : Char → Bool) : String :=
  ⟨(s.data.reverse.dropWhile f).reverse⟩

/-- Go `strings.TrimSpace`: the string without its leading and trailing white
space. -/
def TrimSpace (s : String) : String := TrimRightFunc (TrimLeftFunc s IsSpace) IsSpace

/-- Go `[]byte(s)`: the bytes of the UTF-8 encoding of `s`. -/
def bytes (s : String) : List Nat :=
  s.data.flatMap (fun ch => (String.utf8EncodeChar ch).map UInt8.toNat)

/-- The fields of `integration.Config` that `Collect` sets; the type is declared
in another package and its other fields keep their zero value. -/
structure Config where
  Name : String
  Provider : String
  LogsConfig : List Nat
deriving DecidableEq, Repr

/-- What `Collect` reads from outside the file: the configuration lookup
`config.Datadog.GetString` and the constant `EnvironmentVariable`. -/
structure Env where
  GetString : String → String
  EnvironmentVariable : String

/-- The type `EnvProvider` of the source, a struct without fields. -/
structure EnvProvider where
deriving DecidableEq, Repr

/-- The method `EnvProvider.Collect` of the source: the configurations and the
error (`none` for `nil`). -/
def EnvProvider.Collect (_e : EnvProvider) (env : Env) : List Config × Option String :=
  let customConfigs := TrimSpace (env.GetString "logs_config.custom_configs")
  if Kubelet.len customConfigs = 0 then
    ([], none)
  else
    let integrationConfig : Config :=
      { Provider := env.EnvironmentVariable, Name := name, LogsConfig := [] }
    let integrationConfig := { integrationConfig with LogsConfig := bytes customConfigs }
    ([integrationConfig], none)

/-- A sample environment: every key has the value `  port: 10514  `, and the
provider constant is `environment`. -/
def sampleEnv : Env := ⟨fun _ => "  port: 10514  ", "environment"⟩

/-- A sample environment where the value is made of spaces only. -/
def blankEnv : Env := ⟨fun _ => "   ", "environment"⟩

end Providers

namespace Kubelet

/-- The keys of the Auto tags in the accumulator of a pod: the tag names that
the label and annotation rules of the collector give for this pod. -/
def autoKeys (d : Deps) (c : KubeletCollector) (pod : Pod) : List String :=
  ((podTags d c pod).tags.filter (fun t => decide (t.card = Cardinality.Auto))).map
    (fun t => t.key)

/-- A collector with the label rule `app` to `kube_app`. -/
def appCollector : KubeletCollector := ⟨[("app", "kube_app")], []⟩

/-! ## Lemmas on strings -/

theorem lastIndexAnyAux_none (chars : List Char) :
    ∀ (cs : List Char) (i : Nat) (acc : Int), (∀ c ∈ cs, c ∉ chars) →
      lastIndexAnyAux chars cs i acc = acc
  | [], _, _, _ => rfl
  | c :: cs, i, acc, h => by
    have hc : c ∉ chars := h c (List.mem_cons_self _ _)
    simp only [lastIndexAnyAux, if_neg hc]
    exact lastIndexAnyAux_none chars cs (i + 1) acc
      (fun x hx => h x (List.mem_cons_of_mem _ hx))

theorem lastIndexAnyAux_last (chars : List Char) (c : Char) (ys : List Char)
    (hc : c ∈ chars) (hys : ∀ y ∈ ys, y ∉ chars) :
    ∀ (xs : List Char) (i : Nat) (acc : Int),
      lastIndexAnyAux chars (xs ++ c :: ys) i acc = ((i + xs.length : Nat) : Int)
  | [], i, acc => by
    simp only [List.nil_append, lastIndexAnyAux, if_pos hc, List.length_nil, Nat.add_zero]
    exact lastIndexAnyAux_none chars ys (i + 1) _ hys
  | x :: xs, i, acc => by
    have ih := lastIndexAnyAux_last chars c ys hc hys xs (i + 1)
      (if x ∈ chars then (i : Int) else acc)
    have hl : i + 1 + xs.length = i + (x :: xs).length := by
      simp only [List.length_cons]; omega
    rw [hl] at ih
    exact ih

theorem LastIndexAny_no_dash (N : String) (h : '-' ∉ N.data) : LastIndexAny N "-" = -1 := by
  unfold LastIndexAny
  apply lastIndexAnyAux_none
  intro c hc hmem
  have : c = '-' := by simpa using hmem
  exact h (this ▸ hc)

theorem LastIndexAny_last_dash (P S : String) (h : '-' ∉ S.data) :
    LastIndexAny (P ++ "-" ++ S) "-" = (P.length : Int) := by
  unfold LastIndexAny
  have hd : (P ++ "-" ++ S).data = P.data ++ '-' :: S.data := by
    simp [String.data_append]
  have hs : "-".data = ['-'] := rfl
  rw [hd, hs, lastIndexAnyAux_last ['-'] '-' S.data (by decide) ?_ P.data 0 (-1)]
  · rw [Nat.zero_add]; rfl
  · intro y hy hmem
    have : y = '-' := by simpa using hmem
    exact h (this ▸ hy)

theorem utf8ByteSize_go_ge : ∀ cs : List Char, cs.length ≤ String.utf8ByteSize.go cs
  | [] => Nat.le_refl _
  | c :: cs => by
    have h1 := utf8ByteSize_go_ge cs
    have h2 : 0 < c.utf8Size := Char.utf8Size_pos c
    simp only [String.utf8ByteSize.go, List.length_cons]
    omega

theorem utf8ByteSize_go_ascii : ∀ cs : List Char, (∀ c ∈ cs, c.utf8Size = 1) →
    String.utf8ByteSize.go cs = cs.length
  | [], _ => rfl
  | c :: cs, h => by
    have h1 := utf8ByteSize_go_ascii cs (fun x hx => h x (List.mem_cons_of_mem _ hx))
    have h2 := h c (List.mem_cons_self _ _)
    simp only [String.utf8ByteSize.go, List.length_cons]
    omega

theorem length_le_len (S : String) : S.length ≤ len S := utf8ByteSize_go_ge S.data

theorem Digits_ascii : ∀ c ∈ Digits.data, c.utf8Size = 1 := by decide

theorem AlphaNums_ascii : ∀ c ∈ KubeAllowedEncodeStringAlphaNums.data, c.utf8Size = 1 := by
  decide

theorem StringInRuneset_iff (S R : String) :
    StringInRuneset S R = true ↔ ∀ c ∈ S.data, c ∈ R.data := by
  simp [StringInRuneset, List.all_eq_true]

theorem len_of_StringInRuneset (S R : String) (hR : ∀ c ∈ R.data, c.utf8Size = 1)
    (h : StringInRuneset S R = true) : len S = S.length :=
  utf8ByteSize_go_ascii S.data (fun c hc => hR c ((StringInRuneset_iff S R).1 h c hc))


theorem sliceFrom_after_dash (P S : String) :
    sliceFrom (P ++ "-" ++ S) (P.length + 1) = S := by
  apply String.ext
  have hd : (P ++ "-" ++ S).data = P.data ++ '-' :: S.data := by
    simp [String.data_append]
  have hl : P.length + 1 = (P.data ++ ['-']).length := by
    rw [List.length_append]; rfl
  show ((P ++ "-" ++ S).data.drop (P.length + 1)) = S.data
  rw [hd, hl, show P.data ++ '-' :: S.data = (P.data ++ ['-']) ++ S.data by simp,
    List.drop_left]

theorem sliceTo_before_dash (P S : String) :
    sliceTo (P ++ "-" ++ S) P.length = P := by
  apply String.ext
  have hd : (P ++ "-" ++ S).data = P.data ++ '-' :: S.data := by
    simp [String.data_append]
  show ((P ++ "-" ++ S).data.take P.length) = P.data
  rw [hd]
  exact List.take_left _ _

/-- The value of `parseDeploymentForReplicaset` on a name with a last dash, in
terms of the part `P` before that dash and the part `S` after it. -/
theorem parseDeploymentForReplicaset_split (P S : String) (hdash : '-' ∉ S.data) :
    parseDeploymentForReplicaset (P ++ "-" ++ S) =
      if len S < 3 then ""
      else if (!StringInRuneset S Digits) && (!StringInRuneset S KubeAllowedEncodeStringAlphaNums)
        then "" else P := by
  have hidx := LastIndexAny_last_dash P S hdash
  have hne : ¬ ((P.length : Int) = -1) := by omega
  have h1 : ((P.length : Int) + 1).toNat = P.length + 1 := by omega
  have h2 : (P.length : Int).toNat = P.length := by omega
  unfold parseDeploymentForReplicaset
  simp only [hidx, if_neg hne, h1, h2, sliceFrom_after_dash, sliceTo_before_dash]

/-- C1: for every name `P ++ "-" ++ S` whose last segment `S` has no dash, has
at least 3 characters and is made only of digits or only of characters of the
reduced alphabet, `parseDeploymentForReplicaset` returns `P`, the name with the
last `-S` segment stripped. -/
theorem parseDeploymentForReplicaset_strips_suffix (P S : String)
    (hdash : '-' ∉ S.data) (hlen : 3 ≤ S.length)
    (halpha : (∀ c ∈ S.data, c ∈ Digits.data) ∨
      (∀ c ∈ S.data, c ∈ KubeAllowedEncodeStringAlphaNums.data)) :
    parseDeploymentForReplicaset (P ++ "-" ++ S) = P := by
  rw [parseDeploymentForReplicaset_split P S hdash]
  have hlen3 : ¬ len S < 3 := by
    have := length_le_len S
    omega
  rw [if_neg hlen3]
  rcases halpha with h | h
  · rw [(StringInRuneset_iff S Digits).2 h]; rfl
  · rw [(StringInRuneset_iff S KubeAllowedEncodeStringAlphaNums).2 h]
    cases StringInRuneset S Digits <;> rfl

/-- Witness of C1 at the names `web-7f9` (digits and letters of the reduced
alphabet) and `web-7f9c8d6b5`. -/
theorem parseDeploymentForReplicaset_strips_suffix_witness :
    ('-' ∉ "7f9".data ∧ 3 ≤ "7f9".length ∧
      ((∀ c ∈ "7f9".data, c ∈ Digits.data) ∨
        (∀ c ∈ "7f9".data, c ∈ KubeAllowedEncodeStringAlphaNums.data))) ∧
    parseDeploymentForReplicaset "web-7f9" = "web" ∧
    parseDeploymentForReplicaset "web-7f9c8d6b5" = "web" :=
  ⟨⟨by decide, by decide, Or.inr (by decide)⟩,
    parseDeploymentForReplicaset_strips_suffix "web" "7f9" (by decide) (by decide)
      (Or.inr (by decide)),
    parseDeploymentForReplicaset_strips_suffix "web" "7f9c8d6b5" (by decide) (by decide)
      (Or.inr (by decide))⟩

/-- C2: `parseDeploymentForReplicaset` returns the empty string for every name
without a dash, and for every name whose part `S` after the last dash is shorter
than 3 (in characters or in bytes) or contains a character that is neither a
digit nor in the reduced alphabet. -/
theorem parseDeploymentForReplicaset_empty (N : String)
    (h : '-' ∉ N.data ∨
      ∃ P S : String, N = P ++ "-" ++ S ∧ '-' ∉ S.data ∧
        (S.length < 3 ∨ len S < 3 ∨
          ∃ c ∈ S.data, c ∉ Digits.data ∧ c ∉ KubeAllowedEncodeStringAlphaNums.data)) :
    parseDeploymentForReplicaset N = "" := by
  rcases h with h | ⟨P, S, rfl, hdash, h⟩
  · unfold parseDeploymentForReplicaset
    simp only [LastIndexAny_no_dash N h, if_true]
  · rw [parseDeploymentForReplicaset_split P S hdash]
    by_cases hl : len S < 3
    · rw [if_pos hl]
    · rw [if_neg hl]
      have hD : StringInRuneset S Digits = false := by
        cases hD : StringInRuneset S Digits with
        | false => rfl
        | true =>
          rcases h with h | h | ⟨c, hc, hcD, _⟩
          · have := len_of_StringInRuneset S Digits Digits_ascii hD
            omega
          · exact absurd h hl
          · exact absurd ((StringInRuneset_iff S Digits).1 hD c hc) hcD
      have hA : StringInRuneset S KubeAllowedEncodeStringAlphaNums = false := by
        cases hA : StringInRuneset S KubeAllowedEncodeStringAlphaNums with
        | false => rfl
        | true =>
          rcases h with h | h | ⟨c, hc, _, hcA⟩
          · have := len_of_StringInRuneset S _ AlphaNums_ascii hA
            omega
          · exact absurd h hl
          · exact absurd ((StringInRuneset_iff S _).1 hA c hc) hcA
      rw [hD, hA]; rfl

/-- Witness of C2 at the names `web-ab` and `standalone-rs` (suffix of length 2)
and `standalone` (no dash). -/
theorem parseDeploymentForReplicaset_empty_witness :
    parseDeploymentForReplicaset "web-ab" = "" ∧
    parseDeploymentForReplicaset "standalone-rs" = "" ∧
    parseDeploymentForReplicaset "standalone" = "" :=
  ⟨parseDeploymentForReplicaset_empty "web-ab"
      (Or.inr ⟨"web", "ab", by decide, by decide, Or.inl (by decide)⟩),
    parseDeploymentForReplicaset_empty "standalone-rs"
      (Or.inr ⟨"standalone", "rs", by decide, by decide, Or.inl (by decide)⟩),
    parseDeploymentForReplicaset_empty "standalone" (Or.inl (by decide))⟩


/-! ## Lemmas on the accumulator -/

theorem mem_tagsOfClass (a : String → Option Cardinality) (c : Cardinality) (l : TagList)
    (s : String) :
    s ∈ tagsOfClass a c l ↔ ∃ t ∈ l.tags, resolveClass a t = some c ∧ serialize t = s := by
  simp [tagsOfClass, List.mem_dedup, List.mem_map, List.mem_filter, and_assoc]

theorem low_mem_Compute (a : String → Option Cardinality) (l : TagList) (k v : String)
    (h : (⟨k, v, Cardinality.Low⟩ : Tag) ∈ l.tags) : k ++ ":" ++ v ∈ (l.Compute a).1 :=
  (mem_tagsOfClass a _ l _).2 ⟨_, h, rfl, rfl⟩

theorem high_mem_Compute (a : String → Option Cardinality) (l : TagList) (k v : String)
    (h : (⟨k, v, Cardinality.High⟩ : Tag) ∈ l.tags) : k ++ ":" ++ v ∈ (l.Compute a).2 :=
  (mem_tagsOfClass a _ l _).2 ⟨_, h, rfl, rfl⟩

theorem tagsOfClass_mono (a : String → Option Cardinality) (c : Cardinality) (l l2 : TagList)
    (h : ∀ t ∈ l.tags, t ∈ l2.tags) : ∀ s ∈ tagsOfClass a c l, s ∈ tagsOfClass a c l2 := by
  intro s hs
  obtain ⟨t, ht, hc, hser⟩ := (mem_tagsOfClass a c l s).1 hs
  exact (mem_tagsOfClass a c l2 s).2 ⟨t, h t ht, hc, hser⟩

theorem len_pos_iff (s : String) : len s > 0 ↔ s ≠ "" := by
  constructor
  · intro h hs
    subst hs
    exact absurd h (by decide)
  · intro h
    have hl : 0 < s.length := by
      rcases s with ⟨cs⟩
      cases cs with
      | nil => exact absurd rfl h
      | cons x xs => exact Nat.succ_pos _
    exact Nat.lt_of_lt_of_le hl (length_le_len s)

/-! ## The owner switch -/

theorem addOwnerTags_tags (tags : TagList) (o : PodOwner) :
    (addOwnerTags tags o).tags = tags.tags ++ (addOwnerTags NewTagList o).tags := by
  unfold addOwnerTags
  simp only []
  repeat' split
  all_goals simp [NewTagList, TagList.AddLow, TagList.AddHigh]

theorem foldl_addOwnerTags_tags (owners : List PodOwner) (tags : TagList) :
    (owners.foldl addOwnerTags tags).tags =
      tags.tags ++ owners.flatMap (fun o => (addOwnerTags NewTagList o).tags) := by
  induction owners generalizing tags with
  | nil => simp
  | cons o os ih =>
    rw [List.foldl_cons, ih, addOwnerTags_tags tags o]
    simp [List.flatMap_cons]

theorem addOwnerTags_ReplicaSet (tags : TagList) (n : String) :
    addOwnerTags tags ⟨"ReplicaSet", n⟩ =
      if parseDeploymentForReplicaset n ≠ "" then
        (tags.AddHigh "kube_replica_set" n).AddLow "kube_deployment"
          (parseDeploymentForReplicaset n)
      else tags.AddLow "kube_replica_set" n := by
  by_cases h : parseDeploymentForReplicaset n ≠ ""
  · have hl := (len_pos_iff _).2 h
    simp [addOwnerTags, hl, h]
  · have hl : ¬ len (parseDeploymentForReplicaset n) > 0 := fun hl => h ((len_pos_iff _).1 hl)
    simp [addOwnerTags, hl, h]

theorem addOwnerTags_Deployment (tags : TagList) (n : String) :
    addOwnerTags tags ⟨"Deployment", n⟩ = tags.AddLow "kube_deployment" n := by
  simp [addOwnerTags]

theorem addOwnerTags_DaemonSet (tags : TagList) (n : String) :
    addOwnerTags tags ⟨"DaemonSet", n⟩ = tags.AddLow "kube_daemon_set" n := by
  simp [addOwnerTags]

theorem addOwnerTags_ReplicationController (tags : TagList) (n : String) :
    addOwnerTags tags ⟨"ReplicationController", n⟩ =
      tags.AddLow "kube_replication_controller" n := by
  simp [addOwnerTags]

theorem addOwnerTags_StatefulSet (tags : TagList) (n : String) :
    addOwnerTags tags ⟨"StatefulSet", n⟩ = tags.AddLow "kube_stateful_set" n := by
  simp [addOwnerTags]

theorem addOwnerTags_Job (tags : TagList) (n : String) :
    addOwnerTags tags ⟨"Job", n⟩ = tags.AddHigh "kube_job" n := by
  simp [addOwnerTags]

/-- The tags an owner adds to the accumulator are in the accumulator of the
pod. -/
theorem owner_tags_mem_podTags (d : Deps) (c : KubeletCollector) (pod : Pod) (o : PodOwner)
    (ho : o ∈ pod.Owners) (t : Tag) (ht : t ∈ (addOwnerTags NewTagList o).tags) :
    t ∈ (podTags d c pod).tags := by
  unfold podTags
  simp only []
  rw [foldl_addOwnerTags_tags]
  exact List.mem_append_right _ (List.mem_flatMap.2 ⟨o, ho, ht⟩)

/-! ## The shape of the output -/

theorem foldl_append_singleton {α β : Type} (f : α → β) (xs : List α) (init : List β) :
    xs.foldl (fun out x => out ++ [f x]) init = init ++ xs.map f := by
  induction xs generalizing init with
  | nil => simp
  | cons x xs ih => simp [ih]

/-- The records one pod contributes: the pod record when the UID is not empty,
then the container records. -/
theorem parsePod_eq (d : Deps) (c : KubeletCollector) (output : List TagInfo) (pod : Pod) :
    parsePod d c output pod =
      output ++ ((if pod.Metadata.UID ≠ "" then [podInfo d pod (podTags d c pod)] else []) ++
        pod.Status.Containers.map (containerInfo d pod (podTags d c pod))) := by
  unfold parsePod
  simp only []
  rw [foldl_append_singleton]
  split <;> simp

theorem foldl_parsePod (d : Deps) (c : KubeletCollector) (pods : List Pod)
    (output : List TagInfo) :
    pods.foldl (parsePod d c) output = output ++ pods.flatMap (parsePod d c []) := by
  induction pods generalizing output with
  | nil => simp
  | cons p ps ih =>
    rw [List.foldl_cons, ih, parsePod_eq d c output p, List.flatMap_cons,
      parsePod_eq d c [] p]
    simp

theorem parsePods_eq (d : Deps) (c : KubeletCollector) (pods : List Pod) :
    (parsePods d c pods).1 = pods.flatMap (parsePod d c []) := by
  unfold parsePods
  rw [foldl_parsePod]
  simp

theorem podInfo_mem_parsePods (d : Deps) (c : KubeletCollector) (pods : List Pod) (pod : Pod)
    (hp : pod ∈ pods) (hu : pod.Metadata.UID ≠ "") :
    podInfo d pod (podTags d c pod) ∈ (parsePods d c pods).1 := by
  rw [parsePods_eq]
  refine List.mem_flatMap.2 ⟨pod, hp, ?_⟩
  rw [parsePod_eq, if_pos hu]
  simp

theorem containerInfo_mem_parsePods (d : Deps) (c : KubeletCollector) (pods : List Pod)
    (pod : Pod) (container : ContainerStatus) (hp : pod ∈ pods)
    (hc : container ∈ pod.Status.Containers) :
    containerInfo d pod (podTags d c pod) container ∈ (parsePods d c pods).1 := by
  rw [parsePods_eq]
  refine List.mem_flatMap.2 ⟨pod, hp, ?_⟩
  rw [parsePod_eq]
  simp only [List.nil_append, List.mem_append, List.mem_map]
  exact Or.inr ⟨container, hc, rfl⟩

theorem mem_parsePods (d : Deps) (c : KubeletCollector) (pods : List Pod) (r : TagInfo)
    (hr : r ∈ (parsePods d c pods).1) :
    ∃ pod ∈ pods, (pod.Metadata.UID ≠ "" ∧ r = podInfo d pod (podTags d c pod)) ∨
      ∃ container ∈ pod.Status.Containers,
        r = containerInfo d pod (podTags d c pod) container := by
  rw [parsePods_eq] at hr
  obtain ⟨pod, hp, hr⟩ := List.mem_flatMap.1 hr
  refine ⟨pod, hp, ?_⟩
  rw [parsePod_eq] at hr
  simp only [List.nil_append, List.mem_append, List.mem_map] at hr
  rcases hr with hr | ⟨container, hc, rfl⟩
  · by_cases hu : pod.Metadata.UID ≠ ""
    · rw [if_pos hu] at hr
      exact Or.inl ⟨hu, by simpa using hr⟩
    · rw [if_neg hu] at hr
      exact absurd hr (List.not_mem_nil _)
  · exact Or.inr ⟨container, hc, rfl⟩


/-! ## Owner tags in the pod record (C3, C4, C5) -/

/-- C3, as stated, fails: the pod `standalonePod` has the ReplicaSet owner
`standalone-rs`, from which no Deployment name is recovered, and its record has
`kube_replica_set:standalone-rs` among the Low tags and not among the High
tags. -/
theorem replicaSet_high_counterexample :
    (⟨"ReplicaSet", "standalone-rs"⟩ : PodOwner) ∈ standalonePod.Owners ∧
    (parsePods sampleDeps sampleCollector [standalonePod]).1 =
      [{ Source := "kubelet"
         Entity := "kubernetes_pod://u2"
         HighCardTags := ["pod_name:standalone-x"]
         LowCardTags := ["kube_namespace:default", "kube_replica_set:standalone-rs"] }] ∧
    ∀ r ∈ (parsePods sampleDeps sampleCollector [standalonePod]).1,
      "kube_replica_set:standalone-rs" ∉ r.HighCardTags := by
  decide

/-- C3 (amended): for a pod with a ReplicaSet owner named `n`, the pod-level
lists hold `kube_replica_set:n` as a High tag and `kube_deployment:d` as a Low
tag when a Deployment name `d` is recovered from `n`; when none is recovered
they hold `kube_replica_set:n` as a Low tag and the owner adds nothing else to
the accumulator (no `kube_deployment` tag). -/
theorem replicaSet_owner_tags (d : Deps) (c : KubeletCollector) (pod : Pod) (n : String)
    (ho : (⟨"ReplicaSet", n⟩ : PodOwner) ∈ pod.Owners) :
    (parseDeploymentForReplicaset n ≠ "" →
      "kube_replica_set:" ++ n ∈ (podInfo d pod (podTags d c pod)).HighCardTags ∧
      "kube_deployment:" ++ parseDeploymentForReplicaset n ∈
        (podInfo d pod (podTags d c pod)).LowCardTags) ∧
    (parseDeploymentForReplicaset n = "" →
      "kube_replica_set:" ++ n ∈ (podInfo d pod (podTags d c pod)).LowCardTags ∧
      ∀ tags : TagList,
        addOwnerTags tags ⟨"ReplicaSet", n⟩ = tags.AddLow "kube_replica_set" n) := by
  constructor
  · intro hrec
    have hstep := addOwnerTags_ReplicaSet NewTagList n
    rw [if_pos hrec] at hstep
    constructor
    · exact high_mem_Compute d.autoClass _ "kube_replica_set" n
        (owner_tags_mem_podTags d c pod _ ho _ (by rw [hstep]; simp [TagList.AddLow, TagList.AddHigh, NewTagList]))
    · exact low_mem_Compute d.autoClass _ "kube_deployment" _
        (owner_tags_mem_podTags d c pod _ ho _ (by rw [hstep]; simp [TagList.AddLow, TagList.AddHigh, NewTagList]))
  · intro hrec
    have hstep : ∀ tags : TagList,
        addOwnerTags tags ⟨"ReplicaSet", n⟩ = tags.AddLow "kube_replica_set" n := by
      intro tags
      rw [addOwnerTags_ReplicaSet, if_neg (not_not.2 hrec)]
    exact ⟨low_mem_Compute d.autoClass _ "kube_replica_set" n
      (owner_tags_mem_podTags d c pod _ ho _ (by rw [hstep]; simp [TagList.AddLow, NewTagList])),
      hstep⟩

/-- Witness of the amended C3 at the pods of the spec example (Deployment
recovered) and `standalonePod` (none recovered). -/
theorem replicaSet_owner_tags_witness :
    ((⟨"ReplicaSet", "nginx-7f9c8d6b5"⟩ : PodOwner) ∈ nginxPod.Owners ∧
      parseDeploymentForReplicaset "nginx-7f9c8d6b5" ≠ "" ∧
      "kube_replica_set:nginx-7f9c8d6b5" ∈
        (podInfo sampleDeps nginxPod (podTags sampleDeps sampleCollector nginxPod)).HighCardTags) ∧
    ((⟨"ReplicaSet", "standalone-rs"⟩ : PodOwner) ∈ standalonePod.Owners ∧
      parseDeploymentForReplicaset "standalone-rs" = "" ∧
      "kube_replica_set:standalone-rs" ∈
        (podInfo sampleDeps standalonePod
          (podTags sampleDeps sampleCollector standalonePod)).LowCardTags) :=
  ⟨⟨by decide, by decide,
      ((replicaSet_owner_tags sampleDeps sampleCollector nginxPod "nginx-7f9c8d6b5"
        (by decide)).1 (by decide)).1⟩,
    ⟨by decide, by decide,
      ((replicaSet_owner_tags sampleDeps sampleCollector standalonePod "standalone-rs"
        (by decide)).2 (by decide)).1⟩⟩

/-- C4: for a pod with a non-empty UID and a ReplicaSet owner `n` from which the
Deployment name `dep` is recovered, the pod record is in the output of `parsePods`,
its High tags contain `kube_replica_set:n` and its Low tags contain
`kube_deployment:dep`. -/
theorem replicaSet_deployment_record (d : Deps) (c : KubeletCollector) (pods : List Pod)
    (pod : Pod) (n dep : String) (hp : pod ∈ pods) (hu : pod.Metadata.UID ≠ "")
    (ho : (⟨"ReplicaSet", n⟩ : PodOwner) ∈ pod.Owners)
    (hdep : parseDeploymentForReplicaset n = dep) (hne : dep ≠ "") :
    ∃ r ∈ (parsePods d c pods).1,
      r.Source = d.kubeletCollectorName ∧
      r.Entity = d.PodUIDToEntityName pod.Metadata.UID ∧
      "kube_replica_set:" ++ n ∈ r.HighCardTags ∧
      "kube_deployment:" ++ dep ∈ r.LowCardTags := by
  subst hdep
  have hstep := addOwnerTags_ReplicaSet NewTagList n
  rw [if_pos hne] at hstep
  refine ⟨podInfo d pod (podTags d c pod), podInfo_mem_parsePods d c pods pod hp hu,
    rfl, rfl, ?_, ?_⟩
  · exact high_mem_Compute d.autoClass _ "kube_replica_set" n
      (owner_tags_mem_podTags d c pod _ ho _
        (by rw [hstep]; simp [TagList.AddLow, TagList.AddHigh, NewTagList]))
  · exact low_mem_Compute d.autoClass _ "kube_deployment" _
      (owner_tags_mem_podTags d c pod _ ho _
        (by rw [hstep]; simp [TagList.AddLow, TagList.AddHigh, NewTagList]))

/-- Witness of C4 at the pod of the spec example, owner `nginx-7f9c8d6b5`. -/
theorem replicaSet_deployment_record_witness :
    ∃ r ∈ (parsePods sampleDeps sampleCollector [nginxPod]).1,
      r.Source = "kubelet" ∧
      r.Entity = "kubernetes_pod://u1" ∧
      "kube_replica_set:nginx-7f9c8d6b5" ∈ r.HighCardTags ∧
      "kube_deployment:nginx" ∈ r.LowCardTags :=
  replicaSet_deployment_record sampleDeps sampleCollector [nginxPod] nginxPod
    "nginx-7f9c8d6b5" "nginx" (by decide) (by decide) (by decide) (by decide) (by decide)


/-- C5: for a pod with a non-empty UID and an owner of kind `k` and name `n`,
the pod record is in the output of `parsePods`; its Low tags contain
`kube_deployment:n`, `kube_daemon_set:n`, `kube_replication_controller:n` or
`kube_stateful_set:n` when `k` is Deployment, DaemonSet, ReplicationController
or StatefulSet, and its High tags contain `kube_job:n` when `k` is Job, in
which case the owner adds that High tag and nothing else. -/
theorem owner_kind_tags (d : Deps) (c : KubeletCollector) (pods : List Pod) (pod : Pod)
    (k n : String) (hp : pod ∈ pods) (hu : pod.Metadata.UID ≠ "")
    (ho : (⟨k, n⟩ : PodOwner) ∈ pod.Owners) :
    ∃ r ∈ (parsePods d c pods).1,
      r.Source = d.kubeletCollectorName ∧
      r.Entity = d.PodUIDToEntityName pod.Metadata.UID ∧
      (k = "Deployment" → "kube_deployment:" ++ n ∈ r.LowCardTags) ∧
      (k = "DaemonSet" → "kube_daemon_set:" ++ n ∈ r.LowCardTags) ∧
      (k = "ReplicationController" → "kube_replication_controller:" ++ n ∈ r.LowCardTags) ∧
      (k = "StatefulSet" → "kube_stateful_set:" ++ n ∈ r.LowCardTags) ∧
      (k = "Job" → "kube_job:" ++ n ∈ r.HighCardTags ∧
        ∀ tags : TagList, addOwnerTags tags ⟨k, n⟩ = tags.AddHigh "kube_job" n) := by
  refine ⟨podInfo d pod (podTags d c pod), podInfo_mem_parsePods d c pods pod hp hu,
    rfl, rfl, ?_, ?_, ?_, ?_, ?_⟩
  · rintro rfl
    exact low_mem_Compute d.autoClass _ "kube_deployment" n
      (owner_tags_mem_podTags d c pod _ ho _
        (by rw [addOwnerTags_Deployment]; simp [TagList.AddLow, NewTagList]))
  · rintro rfl
    exact low_mem_Compute d.autoClass _ "kube_daemon_set" n
      (owner_tags_mem_podTags d c pod _ ho _
        (by rw [addOwnerTags_DaemonSet]; simp [TagList.AddLow, NewTagList]))
  · rintro rfl
    exact low_mem_Compute d.autoClass _ "kube_replication_controller" n
      (owner_tags_mem_podTags d c pod _ ho _
        (by rw [addOwnerTags_ReplicationController]; simp [TagList.AddLow, NewTagList]))
  · rintro rfl
    exact low_mem_Compute d.autoClass _ "kube_stateful_set" n
      (owner_tags_mem_podTags d c pod _ ho _
        (by rw [addOwnerTags_StatefulSet]; simp [TagList.AddLow, NewTagList]))
  · rintro rfl
    exact ⟨high_mem_Compute d.autoClass _ "kube_job" n
      (owner_tags_mem_podTags d c pod _ ho _
        (by rw [addOwnerTags_Job]; simp [TagList.AddHigh, NewTagList])),
      fun tags => addOwnerTags_Job tags n⟩

/-- Witness of C5 at `jobPod`, a pod owned by the Job `backup-1` and the
DaemonSet `logger`. -/
theorem owner_kind_tags_witness :
    (∃ r ∈ (parsePods sampleDeps sampleCollector [jobPod]).1,
      r.Entity = "kubernetes_pod://u4" ∧ "kube_job:backup-1" ∈ r.HighCardTags) ∧
    (∃ r ∈ (parsePods sampleDeps sampleCollector [jobPod]).1,
      r.Entity = "kubernetes_pod://u4" ∧ "kube_daemon_set:logger" ∈ r.LowCardTags) := by
  obtain ⟨r, hr, _, he, _, _, _, _, hj⟩ :=
    owner_kind_tags sampleDeps sampleCollector [jobPod] jobPod "Job" "backup-1"
      (by decide) (by decide) (by decide)
  obtain ⟨r2, hr2, _, he2, _, hd, _⟩ :=
    owner_kind_tags sampleDeps sampleCollector [jobPod] jobPod "DaemonSet" "logger"
      (by decide) (by decide) (by decide)
  exact ⟨⟨r, hr, he, (hj rfl).1⟩, ⟨r2, hr2, he2, hd rfl⟩⟩

/-! ## Unknown owner kinds (C6) -/

theorem addOwnerTags_unknown (tags : TagList) (o : PodOwner)
    (hk : o.Kind ∉ ["Deployment", "DaemonSet", "ReplicationController", "StatefulSet", "Job",
      "ReplicaSet"]) : addOwnerTags tags o = tags := by
  simp only [List.mem_cons, List.mem_singleton, List.not_mem_nil, or_false, not_or] at hk
  obtain ⟨h1, h2, h3, h4, h5, h6⟩ := hk
  unfold addOwnerTags
  simp only [h1, h2, h3, h4, h5, h6, if_false, ite_self]

/-- C6: an owner whose kind is empty or is none of Deployment, DaemonSet,
ReplicationController, StatefulSet, Job and ReplicaSet contributes nothing and
stops nothing: whatever the position at which it is inserted in the owner list
of a pod, `parsePods` returns the same records as without it. -/
theorem unknown_owner_kind_ignored (d : Deps) (c : KubeletCollector) (pre post : List Pod)
    (pod : Pod) (xs ys : List PodOwner) (o : PodOwner)
    (hk : o.Kind ∉ ["Deployment", "DaemonSet", "ReplicationController", "StatefulSet", "Job",
      "ReplicaSet"]) :
    parsePods d c
        (pre ++ { pod with Metadata := { pod.Metadata with Owners := xs ++ o :: ys } } :: post) =
      parsePods d c
        (pre ++ { pod with Metadata := { pod.Metadata with Owners := xs ++ ys } } :: post) := by
  have hpod : ∀ output : List TagInfo,
      parsePod d c output
          { pod with Metadata := { pod.Metadata with Owners := xs ++ o :: ys } } =
        parsePod d c output
          { pod with Metadata := { pod.Metadata with Owners := xs ++ ys } } := by
    intro output
    simp only [parsePod, podTags, podInfo, containerInfo, containerTags, Pod.Owners,
      List.foldl_append, List.foldl_cons, addOwnerTags_unknown _ o hk]
  unfold parsePods
  simp only [List.foldl_append, List.foldl_cons, hpod]

/-- Witness of C6: the kind `CustomController` inserted between the two owners
of `jobPod`. -/
theorem unknown_owner_kind_ignored_witness :
    parsePods sampleDeps sampleCollector
        [{ jobPod with Metadata := { jobPod.Metadata with
            Owners := [⟨"Job", "backup-1"⟩, ⟨"CustomController", "c1"⟩,
              ⟨"DaemonSet", "logger"⟩] } }] =
      parsePods sampleDeps sampleCollector
        [{ jobPod with Metadata := { jobPod.Metadata with
            Owners := [⟨"Job", "backup-1"⟩, ⟨"DaemonSet", "logger"⟩] } }] :=
  unknown_owner_kind_ignored sampleDeps sampleCollector [] [] jobPod [⟨"Job", "backup-1"⟩]
    [⟨"DaemonSet", "logger"⟩] ⟨"CustomController", "c1"⟩ (by decide)

/-! ## The number of records (C7) -/

/-- C7: the number of records is the sum over the pods of one for a non-empty
UID plus the number of status containers; a pod with an empty UID gives
exactly the records of its status containers, in order, and no pod record. -/
theorem parsePods_length (d : Deps) (c : KubeletCollector) (pods : List Pod) :
    (parsePods d c pods).1.length =
      (pods.map (fun pod =>
        (if pod.Metadata.UID ≠ "" then 1 else 0) + pod.Status.Containers.length)).sum ∧
    ∀ pod : Pod, pod.Metadata.UID = "" →
      (parsePods d c [pod]).1 =
        pod.Status.Containers.map (containerInfo d pod (podTags d c pod)) ∧
      (parsePods d c [pod]).1.map (fun r => r.Entity) =
        pod.Status.Containers.map (fun container => container.ID) := by
  constructor
  · rw [parsePods_eq, List.length_flatMap]
    congr 1
    apply List.map_congr_left
    intro pod _
    simp only [Function.comp, parsePod_eq, List.nil_append, List.length_append, List.length_map]
    split <;> simp
  · intro pod hu
    have h : (parsePods d c [pod]).1 =
        pod.Status.Containers.map (containerInfo d pod (podTags d c pod)) := by
      rw [parsePods_eq]
      simp [parsePod_eq, hu]
    refine ⟨h, ?_⟩
    rw [h, List.map_map]
    rfl

/-- Witness of C7: `noUidPod` has an empty UID and two status containers, and
gives two records, whose entities are the two container ids. -/
theorem parsePods_length_witness :
    (parsePods sampleDeps sampleCollector [noUidPod, nginxPod]).1.length = 2 + 2 ∧
    (parsePods sampleDeps sampleCollector [noUidPod]).1.map (fun r => r.Entity) =
      ["docker://a1", "docker://b2"] :=
  ⟨(parsePods_length sampleDeps sampleCollector [noUidPod, nginxPod]).1,
    ((parsePods_length sampleDeps sampleCollector []).2 noUidPod (by decide)).2⟩


/-! ## Container records (C8, C10) -/

theorem addImageTags_tags (d : Deps) (container : ContainerStatus) (specs : List ContainerSpec)
    (cTags : TagList) :
    (addImageTags d cTags container specs).tags =
      cTags.tags ++ (addImageTags d NewTagList container specs).tags := by
  induction specs with
  | nil => simp [addImageTags, NewTagList]
  | cons s rest ih =>
    simp only [addImageTags]
    split
    · split
      · simp [NewTagList]
      · simp [NewTagList, TagList.AddLow]
    · exact ih

/-- The image block in terms of the first spec entry with the name of the
status container. -/
theorem addImageTags_find (d : Deps) (container : ContainerStatus) (specs : List ContainerSpec)
    (cTags : TagList) :
    addImageTags d cTags container specs =
      match specs.find? (fun s => decide (s.Name = container.Name)) with
      | none => cTags
      | some spec =>
        match d.SplitImageName spec.Image with
        | Except.error _ => cTags
        | Except.ok (imageName, shortImage, imageTag) =>
          ((cTags.AddLow "image_name" imageName).AddLow "short_image" shortImage).AddLow
            "image_tag" (if imageTag = "" then "latest" else imageTag) := by
  induction specs with
  | nil => rfl
  | cons s rest ih =>
    by_cases h : s.Name = container.Name
    · simp only [addImageTags, if_pos h, List.find?_cons, decide_eq_true h]
    · simp only [addImageTags, if_neg h, List.find?_cons, decide_eq_false h]
      exact ih

/-- The accumulator of a container starts with the entries of the pod
accumulator, followed by `kube_container_name` and `container_id`. -/
theorem containerTags_tags (d : Deps) (pod : Pod) (tags : TagList)
    (container : ContainerStatus) :
    ∃ rest : List Tag, (containerTags d pod tags container).tags =
      tags.tags ++ (⟨"kube_container_name", container.Name, Cardinality.Low⟩ ::
        ⟨"container_id", d.TrimRuntimeFromCID container.ID, Cardinality.High⟩ :: rest) := by
  unfold containerTags
  simp only []
  rw [addImageTags_tags]
  split
  · exact ⟨⟨"display_container_name", container.Name ++ "_" ++ pod.Metadata.Name,
        Cardinality.High⟩ :: (addImageTags d NewTagList container pod.Spec.Containers).tags,
      by simp [TagList.Copy, TagList.AddLow, TagList.AddHigh]⟩
  · exact ⟨(addImageTags d NewTagList container pod.Spec.Containers).tags,
      by simp [TagList.Copy, TagList.AddLow, TagList.AddHigh]⟩

/-- C8: the record of a status container is in the output of `parsePods`; its
Low and High tags contain every tag of the pod-level Low and High lists (the
lists of the pod record), and in addition `kube_container_name` (Low) and
`container_id` (High). -/
theorem container_inherits_pod_tags (d : Deps) (c : KubeletCollector) (pods : List Pod)
    (pod : Pod) (container : ContainerStatus) (hp : pod ∈ pods)
    (hc : container ∈ pod.Status.Containers) :
    ∃ r ∈ (parsePods d c pods).1,
      r.Entity = container.ID ∧
      (∀ s ∈ (podInfo d pod (podTags d c pod)).LowCardTags, s ∈ r.LowCardTags) ∧
      (∀ s ∈ (podInfo d pod (podTags d c pod)).HighCardTags, s ∈ r.HighCardTags) ∧
      "kube_container_name:" ++ container.Name ∈ r.LowCardTags ∧
      "container_id:" ++ d.TrimRuntimeFromCID container.ID ∈ r.HighCardTags := by
  obtain ⟨rest, hrest⟩ := containerTags_tags d pod (podTags d c pod) container
  have hsub : ∀ t ∈ (podTags d c pod).tags,
      t ∈ (containerTags d pod (podTags d c pod) container).tags := by
    intro t ht
    rw [hrest]
    exact List.mem_append_left _ ht
  refine ⟨containerInfo d pod (podTags d c pod) container,
    containerInfo_mem_parsePods d c pods pod container hp hc, rfl, ?_, ?_, ?_, ?_⟩
  · exact tagsOfClass_mono d.autoClass Cardinality.Low _ _ hsub
  · exact tagsOfClass_mono d.autoClass Cardinality.High _ _ hsub
  · exact low_mem_Compute d.autoClass _ "kube_container_name" container.Name
      (by rw [hrest]; simp)
  · exact high_mem_Compute d.autoClass _ "container_id" _ (by rw [hrest]; simp)

/-- Witness of C8 at the container `web` of the pod of the spec example. -/
theorem container_inherits_pod_tags_witness :
    ∃ r ∈ (parsePods sampleDeps sampleCollector [nginxPod]).1,
      r.Entity = "docker://c1" ∧
      (∀ s ∈ ["kube_namespace:default", "kube_deployment:nginx"], s ∈ r.LowCardTags) ∧
      (∀ s ∈ ["pod_name:nginx-abc", "kube_replica_set:nginx-7f9c8d6b5"],
        s ∈ r.HighCardTags) ∧
      "kube_container_name:web" ∈ r.LowCardTags ∧
      "container_id:c1" ∈ r.HighCardTags :=
  container_inherits_pod_tags sampleDeps sampleCollector [nginxPod] nginxPod
    ⟨"web", "docker://c1"⟩ (by decide) (by decide)

/-- C10: when the first spec entry with the name of a status container has an
image that the splitter decomposes into `(imageName, shortImage, imageTag)`, the
record of the container has the Low tags `image_name:imageName`,
`short_image:shortImage` and `image_tag:t`, where `t` is `imageTag`, or `latest`
when `imageTag` is empty; `t` is never empty, and these three tags are all the
image block adds. -/
theorem image_tags_of_first_spec (d : Deps) (c : KubeletCollector) (pods : List Pod)
    (pod : Pod) (container : ContainerStatus) (spec : ContainerSpec)
    (imageName shortImage imageTag : String) (hp : pod ∈ pods)
    (hc : container ∈ pod.Status.Containers)
    (hfind : pod.Spec.Containers.find? (fun s => decide (s.Name = container.Name)) = some spec)
    (hsplit : d.SplitImageName spec.Image = Except.ok (imageName, shortImage, imageTag)) :
    ∃ r ∈ (parsePods d c pods).1, ∃ t : String,
      r.Entity = container.ID ∧
      t = (if imageTag = "" then "latest" else imageTag) ∧ t ≠ "" ∧
      "image_name:" ++ imageName ∈ r.LowCardTags ∧
      "short_image:" ++ shortImage ∈ r.LowCardTags ∧
      "image_tag:" ++ t ∈ r.LowCardTags ∧
      ∀ cTags : TagList, addImageTags d cTags container pod.Spec.Containers =
        ((cTags.AddLow "image_name" imageName).AddLow "short_image" shortImage).AddLow
          "image_tag" t := by
  have hblock : ∀ cTags : TagList, addImageTags d cTags container pod.Spec.Containers =
      ((cTags.AddLow "image_name" imageName).AddLow "short_image" shortImage).AddLow
        "image_tag" (if imageTag = "" then "latest" else imageTag) := by
    intro cTags
    rw [addImageTags_find, hfind]
    simp only [hsplit]
  have hmem : ∀ t ∈ [(⟨"image_name", imageName, Cardinality.Low⟩ : Tag),
      ⟨"short_image", shortImage, Cardinality.Low⟩,
      ⟨"image_tag", if imageTag = "" then "latest" else imageTag, Cardinality.Low⟩],
      t ∈ (containerTags d pod (podTags d c pod) container).tags := by
    intro t ht
    unfold containerTags
    simp only []
    rw [hblock]
    simp only [TagList.AddLow, List.append_assoc]
    exact List.mem_append_right _ (by simpa using ht)
  refine ⟨containerInfo d pod (podTags d c pod) container,
    containerInfo_mem_parsePods d c pods pod container hp hc,
    if imageTag = "" then "latest" else imageTag, rfl, rfl, ?_, ?_, ?_, ?_, hblock⟩
  · split
    · decide
    · assumption
  · exact low_mem_Compute d.autoClass _ "image_name" imageName (hmem _ (by simp))
  · exact low_mem_Compute d.autoClass _ "short_image" shortImage (hmem _ (by simp))
  · exact low_mem_Compute d.autoClass _ "image_tag" _ (hmem _ (by simp))

/-- Witness of C10 at the container `side` of `noUidPod`, whose image `nginx`
has no tag: the record has `image_tag:latest`. -/
theorem image_tags_of_first_spec_witness :
    sampleDeps.SplitImageName "nginx" = Except.ok ("nginx", "nginx", "") ∧
    ∃ r ∈ (parsePods sampleDeps sampleCollector [noUidPod]).1,
      r.Entity = "docker://b2" ∧
      "image_name:nginx" ∈ r.LowCardTags ∧
      "short_image:nginx" ∈ r.LowCardTags ∧
      "image_tag:latest" ∈ r.LowCardTags := by
  obtain ⟨r, hr, t, he, ht, _, h1, h2, h3, _⟩ :=
    image_tags_of_first_spec sampleDeps sampleCollector [noUidPod] noUidPod
      ⟨"side", "docker://b2"⟩ ⟨"side", "nginx"⟩ "nginx" "nginx" "" (by decide) (by decide)
      (by decide) rfl
  subst ht
  exact ⟨rfl, r, hr, he, h1, h2, h3⟩

/-- The accumulator of a container is the pod accumulator followed by the tags
the container adds. -/
theorem containerTags_append (d : Deps) (pod : Pod) (tags : TagList)
    (container : ContainerStatus) :
    (containerTags d pod tags container).tags =
      tags.tags ++ (containerTags d pod NewTagList container).tags := by
  unfold containerTags
  simp only []
  rw [addImageTags_tags, addImageTags_tags d container pod.Spec.Containers
    (if container.Name ≠ "" ∧ pod.Metadata.Name ≠ "" then _ else _)]
  split <;> simp [TagList.Copy, TagList.AddLow, TagList.AddHigh, NewTagList]

/-! ## Keys of the Low and High lists (C9) -/

theorem foldl_invariant {α β : Type} (P : β → Prop) (f : β → α → β) (l : List α) :
    ∀ init : β, P init → (∀ b, P b → ∀ a ∈ l, P (f b a)) → P (l.foldl f init) := by
  induction l with
  | nil => intro init h _; exact h
  | cons x xs ih =>
    intro init h hstep
    exact ih (f init x) (hstep init h x (List.mem_cons_self _ _))
      (fun b hb a ha => hstep b hb a (List.mem_cons_of_mem _ ha))

theorem takeWhile_colon (k v : List Char) :
    (k ++ ':' :: v).takeWhile (fun ch => ch != ':') = k.takeWhile (fun ch => ch != ':') := by
  induction k with
  | nil => simp [List.takeWhile]
  | cons x xs ih =>
    simp only [List.cons_append, List.takeWhile_cons, ih]

theorem takeWhile_colon_free (k : List Char) (h : ':' ∉ k) :
    k.takeWhile (fun ch => ch != ':') = k := by
  rw [List.takeWhile_eq_self_iff]
  intro x hx
  simp only [bne_iff_ne, ne_eq]
  intro hxc
  exact h (hxc ▸ hx)

/-- Two serialized tags with colon-free keys that both read `k:v` for the same
`k` have the same key. -/
theorem key_eq_of_serialize (k v1 v2 : String) (t1 t2 : Tag) (h1 : ':' ∉ t1.key.data)
    (h2 : ':' ∉ t2.key.data) (e1 : serialize t1 = k ++ ":" ++ v1)
    (e2 : serialize t2 = k ++ ":" ++ v2) : t1.key = t2.key := by
  have hdata : ∀ a b : String, (a ++ ":" ++ b).data = a.data ++ ':' :: b.data := by
    intro a b
    simp [String.data_append]
  have key : ∀ (t : Tag) (v : String), ':' ∉ t.key.data → serialize t = k ++ ":" ++ v →
      t.key.data = k.data.takeWhile (fun ch => ch != ':') := by
    intro t v ht e
    have e2 := congrArg (fun s : String => s.data.takeWhile (fun ch => ch != ':')) e
    simp only [serialize, hdata, takeWhile_colon] at e2
    rw [takeWhile_colon_free _ ht] at e2
    exact e2
  exact String.ext ((key t1 v1 h1 e1).trans (key t2 v2 h2 e2).symm)

theorem fixed_keys_colon_free :
    ∀ key ∈ "kube_replica_set" :: (lowKeys ++ highKeys), ':' ∉ key.data := by
  decide

theorem lowKeys_not_high : ∀ key ∈ lowKeys, key ∉ highKeys ∧ key ≠ "kube_replica_set" := by
  decide

theorem highKeys_not_replicaSet : ∀ key ∈ highKeys, key ≠ "kube_replica_set" := by
  decide

theorem FixedTag_colon_free (pod : Pod) (t : Tag) (h : FixedTag pod t) : ':' ∉ t.key.data := by
  apply fixed_keys_colon_free
  rcases h with ⟨_, h⟩ | ⟨_, h⟩ | ⟨h, _⟩
  · exact List.mem_cons_of_mem _ (List.mem_append_left _ h)
  · exact List.mem_cons_of_mem _ (List.mem_append_right _ h)
  · rw [h]; exact List.mem_cons_self _ _

theorem FixedTag_resolveClass (a : String → Option Cardinality) (pod : Pod) (t : Tag)
    (h : FixedTag pod t) : resolveClass a t = some t.card := by
  unfold resolveClass
  rcases h with ⟨h, _⟩ | ⟨h, _⟩ | ⟨_, _, ⟨h, _⟩ | ⟨h, _⟩⟩ <;> rw [h]

theorem FixedTag_low (pod : Pod) (k v : String) (h : k ∈ lowKeys) :
    FixedTag pod ⟨k, v, Cardinality.Low⟩ := Or.inl ⟨rfl, h⟩

theorem FixedTag_high (pod : Pod) (k v : String) (h : k ∈ highKeys) :
    FixedTag pod ⟨k, v, Cardinality.High⟩ := Or.inr (Or.inl ⟨rfl, h⟩)

theorem AutoOrFixed_low (c : KubeletCollector) (pod : Pod) (k v : String) (h : k ∈ lowKeys) :
    AutoOrFixed c pod ⟨k, v, Cardinality.Low⟩ := Or.inr (FixedTag_low pod k v h)

theorem AutoOrFixed_high (c : KubeletCollector) (pod : Pod) (k v : String) (h : k ∈ highKeys) :
    AutoOrFixed c pod ⟨k, v, Cardinality.High⟩ := Or.inr (FixedTag_high pod k v h)

theorem addOwnerTags_fixed (pod : Pod) (o : PodOwner) (ho : o ∈ pod.Owners) :
    ∀ t ∈ (addOwnerTags NewTagList o).tags, FixedTag pod t := by
  intro t ht
  unfold addOwnerTags at ht
  simp only [] at ht
  split at ht
  · simp [NewTagList] at ht
  split at ht
  · simp only [NewTagList, TagList.AddLow, List.nil_append, List.mem_singleton] at ht
    subst ht; exact FixedTag_low pod _ _ (by decide)
  split at ht
  · simp only [NewTagList, TagList.AddLow, List.nil_append, List.mem_singleton] at ht
    subst ht; exact FixedTag_low pod _ _ (by decide)
  split at ht
  · simp only [NewTagList, TagList.AddLow, List.nil_append, List.mem_singleton] at ht
    subst ht; exact FixedTag_low pod _ _ (by decide)
  split at ht
  · simp only [NewTagList, TagList.AddLow, List.nil_append, List.mem_singleton] at ht
    subst ht; exact FixedTag_low pod _ _ (by decide)
  split at ht
  · simp only [NewTagList, TagList.AddHigh, List.nil_append, List.mem_singleton] at ht
    subst ht; exact FixedTag_high pod _ _ (by decide)
  split at ht
  · rename_i hk
    have hown : (⟨"ReplicaSet", o.Name⟩ : PodOwner) ∈ pod.Owners := by
      have : (⟨"ReplicaSet", o.Name⟩ : PodOwner) = o := by
        cases o; simp only [PodOwner.mk.injEq, and_true]; exact hk.symm
      rw [this]; exact ho
    split at ht
    · rename_i hl
      have hne := (len_pos_iff _).1 hl
      simp only [NewTagList, TagList.AddLow, TagList.AddHigh, List.nil_append,
        List.cons_append, List.mem_cons, List.mem_singleton, List.not_mem_nil, or_false] at ht
      rcases ht with ht | ht
      · subst ht; exact Or.inr (Or.inr ⟨rfl, hown, Or.inr ⟨rfl, hne⟩⟩)
      · subst ht; exact FixedTag_low pod _ _ (by decide)
    · rename_i hl
      have he : parseDeploymentForReplicaset o.Name = "" := by
        by_contra hne
        exact hl ((len_pos_iff _).2 hne)
      simp only [NewTagList, TagList.AddLow, List.nil_append, List.mem_singleton] at ht
      subst ht; exact Or.inr (Or.inr ⟨rfl, hown, Or.inl ⟨rfl, he⟩⟩)
  · simp [NewTagList] at ht

/-- Every entry of the pod accumulator is either an Auto tag derived from a
label or annotation rule, or a tag with one of the fixed keys. -/
theorem podTags_classified (d : Deps) (c : KubeletCollector) (pod : Pod) :
    ∀ t ∈ (podTags d c pod).tags, AutoOrFixed c pod t := by
  unfold podTags
  simp only []
  intro t ht
  rw [foldl_addOwnerTags_tags, List.mem_append] at ht
  rcases ht with ht | ht
  · revert t
    unfold addOpenShiftTags
    simp only []
    have hbase : ∀ t ∈ ((NewTagList.AddHigh "pod_name" pod.Metadata.Name).AddLow
        "kube_namespace" pod.Metadata.Namespace).tags, AutoOrFixed c pod t := by
      intro t ht
      simp only [NewTagList, TagList.AddLow, TagList.AddHigh, List.nil_append,
        List.cons_append, List.mem_cons, List.mem_singleton, List.not_mem_nil, or_false] at ht
      rcases ht with ht | ht
      · subst ht; exact AutoOrFixed_high c pod _ _ (by decide)
      · subst ht; exact AutoOrFixed_low c pod _ _ (by decide)
    have hlabels : ∀ t ∈ (addLabelTags d c ((NewTagList.AddHigh "pod_name"
        pod.Metadata.Name).AddLow "kube_namespace" pod.Metadata.Namespace)
        pod.Metadata.Labels).tags, AutoOrFixed c pod t := by
      unfold addLabelTags
      apply foldl_invariant (fun tags : TagList => ∀ t ∈ tags.tags, AutoOrFixed c pod t)
      · exact hbase
      · intro b hb label _
        apply foldl_invariant (fun tags : TagList => ∀ t ∈ tags.tags, AutoOrFixed c pod t)
        · exact hb
        · intro b2 hb2 rule hrule
          split
          · intro t ht
            simp only [TagList.AddAuto, List.mem_append, List.mem_singleton] at ht
            rcases ht with ht | ht
            · exact hb2 t ht
            · subst ht
              refine Or.inl ⟨rfl, fun hno => ?_⟩
              rw [hno.1] at hrule
              exact absurd hrule (List.not_mem_nil _)
          · exact hb2
    have hann : ∀ t ∈ (addAnnotationTags d c (addLabelTags d c ((NewTagList.AddHigh "pod_name"
        pod.Metadata.Name).AddLow "kube_namespace" pod.Metadata.Namespace)
        pod.Metadata.Labels) pod.Metadata.Annotations).tags, AutoOrFixed c pod t := by
      unfold addAnnotationTags
      apply foldl_invariant (fun tags : TagList => ∀ t ∈ tags.tags, AutoOrFixed c pod t)
      · exact hlabels
      · intro b hb annotation _
        split
        · rename_i tagName hlook
          intro t ht
          simp only [TagList.AddAuto, List.mem_append, List.mem_singleton] at ht
          rcases ht with ht | ht
          · exact hb t ht
          · subst ht
            refine Or.inl ⟨rfl, fun hno => ?_⟩
            rw [hno.2] at hlook
            simp [List.lookup] at hlook
        · exact hb
    intro t ht
    split at ht <;> split at ht
    all_goals
      simp only [TagList.AddLow, TagList.AddHigh, List.mem_append, List.mem_singleton] at ht
    · rcases ht with (ht | ht) | ht
      · exact hann t ht
      · subst ht; exact AutoOrFixed_low c pod _ _ (by decide)
      · subst ht; exact AutoOrFixed_high c pod _ _ (by decide)
    · rcases ht with ht | ht
      · exact hann t ht
      · subst ht; exact AutoOrFixed_high c pod _ _ (by decide)
    · rcases ht with ht | ht
      · exact hann t ht
      · subst ht; exact AutoOrFixed_low c pod _ _ (by decide)
    · exact hann t ht
  · obtain ⟨o, ho, hto⟩ := List.mem_flatMap.1 ht
    exact Or.inr (addOwnerTags_fixed pod o ho t hto)

theorem addImageTags_fixed (d : Deps) (pod : Pod) (container : ContainerStatus)
    (specs : List ContainerSpec) :
    ∀ t ∈ (addImageTags d NewTagList container specs).tags, FixedTag pod t := by
  intro t ht
  rw [addImageTags_find] at ht
  split at ht
  · simp [NewTagList] at ht
  · split at ht
    · simp [NewTagList] at ht
    · simp only [NewTagList, TagList.AddLow, List.nil_append, List.cons_append,
        List.mem_cons, List.mem_singleton, List.not_mem_nil, or_false] at ht
      rcases ht with ht | ht | ht <;> subst ht <;> exact FixedTag_low pod _ _ (by decide)

theorem containerTags_own_fixed (d : Deps) (pod : Pod) (container : ContainerStatus) :
    ∀ t ∈ (containerTags d pod NewTagList container).tags, FixedTag pod t := by
  intro t ht
  unfold containerTags at ht
  simp only [] at ht
  rw [addImageTags_tags, List.mem_append] at ht
  rcases ht with ht | ht
  · split at ht
    all_goals
      simp only [TagList.Copy, TagList.AddLow, TagList.AddHigh, NewTagList, List.nil_append,
        List.cons_append, List.mem_cons, List.mem_singleton, List.not_mem_nil, or_false] at ht
    · rcases ht with ht | ht | ht
      · subst ht; exact FixedTag_low pod _ _ (by decide)
      · subst ht; exact FixedTag_high pod _ _ (by decide)
      · subst ht; exact FixedTag_high pod _ _ (by decide)
    · rcases ht with ht | ht
      · subst ht; exact FixedTag_low pod _ _ (by decide)
      · subst ht; exact FixedTag_high pod _ _ (by decide)
  · exact addImageTags_fixed d pod container _ t ht

/-- An Auto tag that reaches a list has a key that the naming table gives that
list. -/
theorem resolveClass_auto (a : String → Option Cardinality) (t : Tag) (cl : Cardinality)
    (hcard : t.card = Cardinality.Auto) (h : resolveClass a t = some cl) :
    a t.key = some cl := by
  unfold resolveClass at h
  rw [hcard] at h
  simp only [] at h
  split at h
  · rename_i heq
    rw [heq]; exact h
  · rename_i heq
    rw [heq]; exact h
  · exact absurd h (by simp)

/-- C9, as stated, fails.  The record of `mixedPod`, whose two ReplicaSet owners
are one generated and one hand-named, has `kube_replica_set:standalone-rs`
among its Low tags and `kube_replica_set:web-7f9` among its High tags; and the
record of `labelPod`, where a label rule emits the Auto tag `pod_name:x`
resolved as Low, has `pod_name:x` Low and `pod_name:y` High. -/
theorem low_high_key_disagreement_counterexample :
    (∃ r ∈ (parsePods sampleDeps sampleCollector [mixedPod]).1,
      ∃ k v1 v2 : String, v1 ≠ v2 ∧
        k ++ ":" ++ v1 ∈ r.LowCardTags ∧ k ++ ":" ++ v2 ∈ r.HighCardTags) ∧
    (∃ r ∈ (parsePods labelDeps labelCollector [labelPod]).1,
      ∃ k v1 v2 : String, v1 ≠ v2 ∧
        k ++ ":" ++ v1 ∈ r.LowCardTags ∧ k ++ ":" ++ v2 ∈ r.HighCardTags) :=
  ⟨⟨{ Source := "kubelet"
      Entity := "kubernetes_pod://u3"
      HighCardTags := ["pod_name:mixed-x", "kube_replica_set:web-7f9"]
      LowCardTags := ["kube_namespace:default", "kube_deployment:web",
        "kube_replica_set:standalone-rs"] },
      by decide, "kube_replica_set", "standalone-rs", "web-7f9", by decide, by decide,
      by decide⟩,
    ⟨{ Source := "kubelet"
       Entity := "kubernetes_pod://u5"
       HighCardTags := ["pod_name:y"]
       LowCardTags := ["kube_namespace:default", "pod_name:x"] },
      by decide, "pod_name", "x", "y", by decide, by decide, by decide⟩⟩

/-- C9 (amended): the Low and High lists of every record of `parsePods` never
disagree on a key, provided that, for each pod, (a) every Auto tag of the pod
that the naming table resolves has a key without a colon that the code does not
add itself with the other class (a key resolved as Low is not one of
`highKeys`, a key resolved as High is not one of `lowKeys`, and neither is
`kube_replica_set`), and (b) the ReplicaSet owners of the pod are all with or
all without a recoverable Deployment name. -/
theorem low_high_keys_agree (d : Deps) (c : KubeletCollector) (pods : List Pod)
    (hauto : ∀ pod ∈ pods, ∀ key ∈ autoKeys d c pod,
      (d.autoClass key = some Cardinality.Low →
        ':' ∉ key.data ∧ key ∉ highKeys ∧ key ≠ "kube_replica_set") ∧
      (d.autoClass key = some Cardinality.High →
        ':' ∉ key.data ∧ key ∉ lowKeys ∧ key ≠ "kube_replica_set"))
    (hrs : ∀ pod ∈ pods, ∀ n1 n2 : String,
      (⟨"ReplicaSet", n1⟩ : PodOwner) ∈ pod.Owners →
      (⟨"ReplicaSet", n2⟩ : PodOwner) ∈ pod.Owners →
      (parseDeploymentForReplicaset n1 = "" ↔ parseDeploymentForReplicaset n2 = ""))
    (r : TagInfo) (hr : r ∈ (parsePods d c pods).1) :
    ¬ ∃ k v1 v2 : String, v1 ≠ v2 ∧
      k ++ ":" ++ v1 ∈ r.LowCardTags ∧ k ++ ":" ++ v2 ∈ r.HighCardTags := by
  rintro ⟨k, v1, v2, _, hlow, hhigh⟩
  obtain ⟨pod, hp, hcase⟩ := mem_parsePods d c pods r hr
  have hT : ∃ T : TagList, r.LowCardTags = tagsOfClass d.autoClass Cardinality.Low T ∧
      r.HighCardTags = tagsOfClass d.autoClass Cardinality.High T ∧
      ∀ t ∈ T.tags, t ∈ (podTags d c pod).tags ∨ FixedTag pod t := by
    rcases hcase with ⟨_, rfl⟩ | ⟨container, _, rfl⟩
    · exact ⟨podTags d c pod, rfl, rfl, fun t ht => Or.inl ht⟩
    · refine ⟨containerTags d pod (podTags d c pod) container, rfl, rfl, ?_⟩
      intro t ht
      rw [containerTags_append, List.mem_append] at ht
      rcases ht with ht | ht
      · exact Or.inl ht
      · exact Or.inr (containerTags_own_fixed d pod container t ht)
  obtain ⟨T, hL, hH, hT⟩ := hT
  rw [hL] at hlow
  rw [hH] at hhigh
  obtain ⟨t1, ht1, hc1, hs1⟩ := (mem_tagsOfClass _ _ _ _).1 hlow
  obtain ⟨t2, ht2, hc2, hs2⟩ := (mem_tagsOfClass _ _ _ _).1 hhigh
  have hcases : ∀ (t : Tag) (cl : Cardinality), t ∈ T.tags →
      resolveClass d.autoClass t = some cl →
      (FixedTag pod t ∧ t.card = cl) ∨
        (t.key ∈ autoKeys d c pod ∧ d.autoClass t.key = some cl) := by
    intro t cl ht hc
    have hfix : FixedTag pod t → FixedTag pod t ∧ t.card = cl := by
      intro hf
      rw [FixedTag_resolveClass _ pod t hf] at hc
      exact ⟨hf, Option.some.inj hc⟩
    rcases hT t ht with hpod | hf
    · rcases podTags_classified d c pod t hpod with ⟨hauto_t, _⟩ | hf
      · refine Or.inr ⟨?_, resolveClass_auto _ t cl hauto_t hc⟩
        unfold autoKeys
        exact List.mem_map.2 ⟨t, List.mem_filter.2 ⟨hpod, decide_eq_true hauto_t⟩, rfl⟩
      · exact Or.inl (hfix hf)
    · exact Or.inl (hfix hf)
  have hcolon1 : ':' ∉ t1.key.data := by
    rcases hcases t1 _ ht1 hc1 with ⟨hf, _⟩ | ⟨hk, ha⟩
    · exact FixedTag_colon_free pod t1 hf
    · exact ((hauto pod hp _ hk).1 ha).1
  have hcolon2 : ':' ∉ t2.key.data := by
    rcases hcases t2 _ ht2 hc2 with ⟨hf, _⟩ | ⟨hk, ha⟩
    · exact FixedTag_colon_free pod t2 hf
    · exact ((hauto pod hp _ hk).2 ha).1
  have hkey : t1.key = t2.key := key_eq_of_serialize k v1 v2 t1 t2 hcolon1 hcolon2 hs1 hs2
  rcases hcases t1 _ ht1 hc1 with ⟨hf1, hcard1⟩ | ⟨hk1, ha1⟩
  · rcases hcases t2 _ ht2 hc2 with ⟨hf2, hcard2⟩ | ⟨hk2, ha2⟩
    · rcases hf1 with ⟨_, hk1⟩ | ⟨h, _⟩ | ⟨hk1, ho1, ⟨_, hp1⟩ | ⟨h, _⟩⟩
      · rcases hf2 with ⟨h, _⟩ | ⟨_, hk2⟩ | ⟨hk2, _, _⟩
        · rw [hcard2] at h; exact absurd h (by decide)
        · exact (lowKeys_not_high _ hk1).1 (hkey ▸ hk2)
        · exact (lowKeys_not_high _ hk1).2 (hkey.trans hk2)
      · rw [hcard1] at h; exact absurd h (by decide)
      · rcases hf2 with ⟨h, _⟩ | ⟨_, hk2⟩ | ⟨_, ho2, ⟨h, _⟩ | ⟨_, hp2⟩⟩
        · rw [hcard2] at h; exact absurd h (by decide)
        · exact highKeys_not_replicaSet _ hk2 (hkey.symm.trans hk1)
        · rw [hcard2] at h; exact absurd h (by decide)
        · exact hp2 ((hrs pod hp _ _ ho1 ho2).1 hp1)
      · rw [hcard1] at h; exact absurd h (by decide)
    · obtain ⟨_, hnl, hnr⟩ := (hauto pod hp _ hk2).2 ha2
      rcases hf1 with ⟨_, hk1⟩ | ⟨h, _⟩ | ⟨hk1, _, _⟩
      · exact hnl (hkey ▸ hk1)
      · rw [hcard1] at h; exact absurd h (by decide)
      · exact hnr (hkey.symm.trans hk1)
  · obtain ⟨_, hnh, hnr⟩ := (hauto pod hp _ hk1).1 ha1
    rcases hcases t2 _ ht2 hc2 with ⟨hf2, hcard2⟩ | ⟨hk2, ha2⟩
    · rcases hf2 with ⟨h, _⟩ | ⟨_, hk2⟩ | ⟨hk2, _, _⟩
      · rw [hcard2] at h; exact absurd h (by decide)
      · exact hnh (hkey.symm ▸ hk2)
      · exact hnr (hkey.trans hk2)
    · rw [hkey, ha2] at ha1
      exact absurd ha1 (by decide)

/-- Witness of the amended C9 at `labelPod` with the label rule `app` to
`kube_app`: the Auto tag `kube_app:x` is resolved as Low and reaches the Low
list, its key has no colon and is not a key the code adds as High, the pod has
no owner, and the two lists of the pod record do not disagree on any key. -/
theorem low_high_keys_agree_witness :
    autoKeys labelDeps appCollector labelPod = ["kube_app"] ∧
    labelDeps.autoClass "kube_app" = some Cardinality.Low ∧
    labelPod.Owners = [] ∧
    (parsePods labelDeps appCollector [labelPod]).1 =
      [{ Source := "kubelet"
         Entity := "kubernetes_pod://u5"
         HighCardTags := ["pod_name:y"]
         LowCardTags := ["kube_namespace:default", "kube_app:x"] }] ∧
    ¬ ∃ k v1 v2 : String, v1 ≠ v2 ∧
      k ++ ":" ++ v1 ∈ ["kube_namespace:default", "kube_app:x"] ∧
      k ++ ":" ++ v2 ∈ ["pod_name:y"] :=
  ⟨by decide, rfl, rfl, by decide,
    low_high_keys_agree labelDeps appCollector [labelPod]
      (by decide)
      (by
        intro pod hp n1 n2 h1 _
        have hpod : pod = labelPod := by simpa using hp
        subst hpod
        exact absurd h1 (by simp [Pod.Owners, labelPod]))
      { Source := "kubelet"
        Entity := "kubernetes_pod://u5"
        HighCardTags := ["pod_name:y"]
        LowCardTags := ["kube_namespace:default", "kube_app:x"] }
      (by decide)⟩

/-! ## Undecomposable images (C11) -/

theorem containerTags_sub (d : Deps) (pod : Pod) (tags : TagList)
    (container : ContainerStatus) :
    ∀ t ∈ tags.tags, t ∈ (containerTags d pod tags container).tags := by
  intro t ht
  obtain ⟨rest, hrest⟩ := containerTags_tags d pod tags container
  rw [hrest]
  exact List.mem_append_left _ ht

theorem container_name_mem_containerTags (d : Deps) (pod : Pod) (tags : TagList)
    (container : ContainerStatus) :
    (⟨"kube_container_name", container.Name, Cardinality.Low⟩ : Tag) ∈
      (containerTags d pod tags container).tags := by
  obtain ⟨rest, hrest⟩ := containerTags_tags d pod tags container
  rw [hrest]
  simp

theorem container_id_mem_containerTags (d : Deps) (pod : Pod) (tags : TagList)
    (container : ContainerStatus) :
    (⟨"container_id", d.TrimRuntimeFromCID container.ID, Cardinality.High⟩ : Tag) ∈
      (containerTags d pod tags container).tags := by
  obtain ⟨rest, hrest⟩ := containerTags_tags d pod tags container
  rw [hrest]
  simp

/-- The image block leaves the accumulator as it is when no spec entry has the
name of the container, or when the image of the first such entry is not
decomposed. -/
theorem addImageTags_skip (d : Deps) (container : ContainerStatus)
    (specs : List ContainerSpec)
    (h : specs.find? (fun s => decide (s.Name = container.Name)) = none ∨
      ∃ (spec : ContainerSpec) (e : String),
        specs.find? (fun s => decide (s.Name = container.Name)) = some spec ∧
        d.SplitImageName spec.Image = Except.error e) (cTags : TagList) :
    addImageTags d cTags container specs = cTags := by
  rw [addImageTags_find]
  rcases h with h | ⟨spec, e, h, he⟩
  · rw [h]
  · rw [h]
    simp only [he]

/-- C11: `parsePods` returns no error, whatever the pods; and for a status
container without a spec entry of its name, or whose first such entry has an
image that the splitter does not decompose, the record is still in the output:
the image block adds nothing, so the record is the one the container has when
the spec list is empty, with `kube_container_name`, `container_id` and the
pod-level tags. -/
theorem parsePods_no_error_image_skipped (d : Deps) (c : KubeletCollector) (pods : List Pod) :
    (parsePods d c pods).2 = none ∧
    ∀ pod ∈ pods, ∀ container ∈ pod.Status.Containers,
      (pod.Spec.Containers.find? (fun s => decide (s.Name = container.Name)) = none ∨
        ∃ (spec : ContainerSpec) (e : String),
          pod.Spec.Containers.find? (fun s => decide (s.Name = container.Name)) = some spec ∧
          d.SplitImageName spec.Image = Except.error e) →
      ∃ r ∈ (parsePods d c pods).1,
        r.Entity = container.ID ∧
        r = containerInfo d { pod with Spec := ⟨[]⟩ } (podTags d c pod) container ∧
        (∀ cTags : TagList, addImageTags d cTags container pod.Spec.Containers = cTags) ∧
        "kube_container_name:" ++ container.Name ∈ r.LowCardTags ∧
        "container_id:" ++ d.TrimRuntimeFromCID container.ID ∈ r.HighCardTags ∧
        (∀ s ∈ (podInfo d pod (podTags d c pod)).LowCardTags, s ∈ r.LowCardTags) ∧
        (∀ s ∈ (podInfo d pod (podTags d c pod)).HighCardTags, s ∈ r.HighCardTags) := by
  refine ⟨rfl, ?_⟩
  intro pod hp container hc hfail
  have hskip := addImageTags_skip d container pod.Spec.Containers hfail
  refine ⟨containerInfo d pod (podTags d c pod) container,
    containerInfo_mem_parsePods d c pods pod container hp hc, rfl, ?_, hskip, ?_, ?_, ?_, ?_⟩
  · simp only [containerInfo, containerTags, hskip, addImageTags]
  · exact low_mem_Compute d.autoClass _ "kube_container_name" container.Name
      (container_name_mem_containerTags d pod _ container)
  · exact high_mem_Compute d.autoClass _ "container_id" _
      (container_id_mem_containerTags d pod _ container)
  · exact tagsOfClass_mono d.autoClass Cardinality.Low _ _ (containerTags_sub d pod _ container)
  · exact tagsOfClass_mono d.autoClass Cardinality.High _ _ (containerTags_sub d pod _ container)

/-- Witness of C11 at `brokenImagePod`: the image of the first spec entry named
`web` is refused, and the record of the container has no image tag. -/
theorem parsePods_no_error_image_skipped_witness :
    (parsePods sampleDeps sampleCollector [brokenImagePod]).2 = none ∧
    sampleDeps.SplitImageName "" = Except.error "empty image" ∧
    ∃ r ∈ (parsePods sampleDeps sampleCollector [brokenImagePod]).1,
      r.Entity = "docker://c9" ∧
      r.LowCardTags = ["kube_namespace:default", "kube_container_name:web"] ∧
      r.HighCardTags = ["pod_name:broken", "container_id:c9",
        "display_container_name:web_broken"] := by
  obtain ⟨r, hr, he, hrec, _⟩ :=
    (parsePods_no_error_image_skipped sampleDeps sampleCollector [brokenImagePod]).2
      brokenImagePod (by decide) ⟨"web", "docker://c9"⟩ (by decide)
      (Or.inr ⟨⟨"web", ""⟩, "empty image", by decide, rfl⟩)
  refine ⟨rfl, rfl, r, hr, he, ?_, ?_⟩
  · rw [hrec]; decide
  · rw [hrec]; decide

/-! ## Pod name and namespace (C12) -/

theorem addLabelTags_sub (d : Deps) (c : KubeletCollector) (tags : TagList)
    (labels : List (String × String)) :
    ∀ t ∈ tags.tags, t ∈ (addLabelTags d c tags labels).tags := by
  unfold addLabelTags
  apply foldl_invariant (fun l : TagList => ∀ t ∈ tags.tags, t ∈ l.tags)
  · exact fun t ht => ht
  · intro b hb label _
    apply foldl_invariant (fun l : TagList => ∀ t ∈ tags.tags, t ∈ l.tags)
    · exact hb
    · intro b2 hb2 rule _
      split
      · intro t ht
        exact List.mem_append_left _ (hb2 t ht)
      · exact hb2

theorem addAnnotationTags_sub (d : Deps) (c : KubeletCollector) (tags : TagList)
    (annotations : List (String × String)) :
    ∀ t ∈ tags.tags, t ∈ (addAnnotationTags d c tags annotations).tags := by
  unfold addAnnotationTags
  apply foldl_invariant (fun l : TagList => ∀ t ∈ tags.tags, t ∈ l.tags)
  · exact fun t ht => ht
  · intro b hb annotation _
    split
    · intro t ht
      exact List.mem_append_left _ (hb t ht)
    · exact hb

theorem addOpenShiftTags_sub (tags : TagList) (annotations : List (String × String)) :
    ∀ t ∈ tags.tags, t ∈ (addOpenShiftTags tags annotations).tags := by
  intro t ht
  unfold addOpenShiftTags
  simp only []
  split <;> split <;>
    simp only [TagList.AddLow, TagList.AddHigh, List.mem_append, List.mem_singleton, ht,
      true_or]

/-- The pod name and the namespace, added first, stay in the accumulator of the
pod. -/
theorem base_tags_mem_podTags (d : Deps) (c : KubeletCollector) (pod : Pod) :
    (⟨"pod_name", pod.Metadata.Name, Cardinality.High⟩ : Tag) ∈ (podTags d c pod).tags ∧
    (⟨"kube_namespace", pod.Metadata.Namespace, Cardinality.Low⟩ : Tag) ∈
      (podTags d c pod).tags := by
  have hsub : ∀ t ∈ ((NewTagList.AddHigh "pod_name" pod.Metadata.Name).AddLow
      "kube_namespace" pod.Metadata.Namespace).tags, t ∈ (podTags d c pod).tags := by
    intro t ht
    unfold podTags
    simp only []
    rw [foldl_addOwnerTags_tags]
    exact List.mem_append_left _
      (addOpenShiftTags_sub _ _ t
        (addAnnotationTags_sub d c _ _ t (addLabelTags_sub d c _ _ t ht)))
  exact ⟨hsub _ (by simp [NewTagList, TagList.AddLow, TagList.AddHigh]),
    hsub _ (by simp [NewTagList, TagList.AddLow, TagList.AddHigh])⟩

/-- C12: for a pod with a non-empty UID, whatever its name, namespace, labels,
annotations and owners, the pod record is in the output of `parsePods`, its
High tags contain `pod_name:<name>` and its Low tags contain
`kube_namespace:<namespace>`. -/
theorem pod_name_and_namespace_tags (d : Deps) (c : KubeletCollector) (pods : List Pod)
    (pod : Pod) (hp : pod ∈ pods) (hu : pod.Metadata.UID ≠ "") :
    ∃ r ∈ (parsePods d c pods).1,
      r.Source = d.kubeletCollectorName ∧
      r.Entity = d.PodUIDToEntityName pod.Metadata.UID ∧
      "pod_name:" ++ pod.Metadata.Name ∈ r.HighCardTags ∧
      "kube_namespace:" ++ pod.Metadata.Namespace ∈ r.LowCardTags :=
  ⟨podInfo d pod (podTags d c pod), podInfo_mem_parsePods d c pods pod hp hu, rfl, rfl,
    high_mem_Compute d.autoClass _ "pod_name" _ (base_tags_mem_podTags d c pod).1,
    low_mem_Compute d.autoClass _ "kube_namespace" _ (base_tags_mem_podTags d c pod).2⟩

/-- Witness of C12 at `labelPod`, a pod with a label that a rule turns into a
tag. -/
theorem pod_name_and_namespace_tags_witness :
    ∃ r ∈ (parsePods labelDeps labelCollector [labelPod]).1,
      r.Source = "kubelet" ∧
      r.Entity = "kubernetes_pod://u5" ∧
      "pod_name:y" ∈ r.HighCardTags ∧
      "kube_namespace:default" ∈ r.LowCardTags :=
  pod_name_and_namespace_tags labelDeps labelCollector [labelPod] labelPod (by decide)
    (by decide)

/-! ## The display name of a container (C13) -/

theorem addImageTags_no_display (d : Deps) (container : ContainerStatus)
    (specs : List ContainerSpec) (v : String) (card : Cardinality) :
    (⟨"display_container_name", v, card⟩ : Tag) ∉
      (addImageTags d NewTagList container specs).tags := by
  rw [addImageTags_find]
  split
  · simp [NewTagList]
  · split
    · simp [NewTagList]
    · simp [NewTagList, TagList.AddLow]

/-- C13: among the tags a status container adds to its copy of the pod
accumulator, there is one with the key `display_container_name` if and only if
the container name and the pod name are both non-empty; it is then a High tag
of value `<container name>_<pod name>`, and it is in the High list of the
record of the container. -/
theorem display_container_name_iff (d : Deps) (pod : Pod) (tags : TagList)
    (container : ContainerStatus) :
    (∀ (v : String) (card : Cardinality),
      (⟨"display_container_name", v, card⟩ : Tag) ∈
          (containerTags d pod NewTagList container).tags ↔
        (container.Name ≠ "" ∧ pod.Metadata.Name ≠ "") ∧
          v = container.Name ++ "_" ++ pod.Metadata.Name ∧ card = Cardinality.High) ∧
    (containerTags d pod tags container).tags =
      tags.tags ++ (containerTags d pod NewTagList container).tags ∧
    (container.Name ≠ "" ∧ pod.Metadata.Name ≠ "" →
      "display_container_name:" ++ (container.Name ++ "_" ++ pod.Metadata.Name) ∈
        (containerInfo d pod tags container).HighCardTags) := by
  have hiff : ∀ (v : String) (card : Cardinality),
      (⟨"display_container_name", v, card⟩ : Tag) ∈
          (containerTags d pod NewTagList container).tags ↔
        (container.Name ≠ "" ∧ pod.Metadata.Name ≠ "") ∧
          v = container.Name ++ "_" ++ pod.Metadata.Name ∧ card = Cardinality.High := by
    intro v card
    have himg := addImageTags_no_display d container pod.Spec.Containers v card
    simp only [NewTagList] at himg
    unfold containerTags
    simp only []
    rw [addImageTags_tags]
    by_cases hcond : container.Name ≠ "" ∧ pod.Metadata.Name ≠ ""
    · rw [if_pos hcond]
      simp [TagList.Copy, TagList.AddLow, TagList.AddHigh, NewTagList, himg, hcond]
    · rw [if_neg hcond]
      simp [TagList.Copy, TagList.AddLow, TagList.AddHigh, NewTagList, himg, hcond]
  refine ⟨hiff, containerTags_append d pod tags container, ?_⟩
  intro hcond
  apply high_mem_Compute d.autoClass _ "display_container_name"
  rw [containerTags_append]
  exact List.mem_append_right _ ((hiff _ _).2 ⟨hcond, rfl, rfl⟩)

/-- Witness of C13 at the container `web` of the pod `nginx-abc` of the spec
example. -/
theorem display_container_name_iff_witness :
    (("web" : String) ≠ "" ∧ nginxPod.Metadata.Name ≠ "") ∧
    "display_container_name:web_nginx-abc" ∈
      (containerInfo sampleDeps nginxPod (podTags sampleDeps sampleCollector nginxPod)
        ⟨"web", "docker://c1"⟩).HighCardTags :=
  ⟨by decide,
    (display_container_name_iff sampleDeps nginxPod
      (podTags sampleDeps sampleCollector nginxPod) ⟨"web", "docker://c1"⟩).2.2 (by decide)⟩

/-! ## Suffixes that mix the two alphabets (C15) -/

/-- C15: when the part `S` after the last dash has at least 3 characters and is
neither made only of digits nor only of characters of the reduced alphabet,
`parseDeploymentForReplicaset` returns the empty string, also when every
character of `S` is in one of the two alphabets. -/
theorem parseDeploymentForReplicaset_mixed_suffix (P S : String) (hdash : '-' ∉ S.data)
    (hlen : 3 ≤ S.length) (hdigits : ¬ ∀ ch ∈ S.data, ch ∈ Digits.data)
    (halpha : ¬ ∀ ch ∈ S.data, ch ∈ KubeAllowedEncodeStringAlphaNums.data) :
    ¬ len S < 3 ∧ parseDeploymentForReplicaset (P ++ "-" ++ S) = "" := by
  have hlen3 : ¬ len S < 3 := by
    have := length_le_len S
    omega
  refine ⟨hlen3, ?_⟩
  rw [parseDeploymentForReplicaset_split P S hdash, if_neg hlen3]
  have hD : StringInRuneset S Digits = false := by
    cases h : StringInRuneset S Digits with
    | false => rfl
    | true => exact absurd ((StringInRuneset_iff S Digits).1 h) hdigits
  have hA : StringInRuneset S KubeAllowedEncodeStringAlphaNums = false := by
    cases h : StringInRuneset S KubeAllowedEncodeStringAlphaNums with
    | false => rfl
    | true => exact absurd ((StringInRuneset_iff S _).1 h) halpha
  rw [hD, hA]
  rfl

/-- Witness of C15 at `web-1b3`: each character of `1b3` is in one of the two
alphabets, `1` only in the digits and `b` only in the reduced alphabet. -/
theorem parseDeploymentForReplicaset_mixed_suffix_witness :
    (∀ ch ∈ "1b3".data, ch ∈ Digits.data ∨ ch ∈ KubeAllowedEncodeStringAlphaNums.data) ∧
    '1' ∉ KubeAllowedEncodeStringAlphaNums.data ∧ 'b' ∉ Digits.data ∧
    parseDeploymentForReplicaset "web-1b3" = "" :=
  ⟨by decide, by decide, by decide,
    (parseDeploymentForReplicaset_mixed_suffix "web" "1b3" (by decide) (by decide)
      (by decide) (by decide)).2⟩

/-! ## The first spec entry with the name of the container (C16) -/

theorem addImageTags_first_match (d : Deps) (container : ContainerStatus)
    (pre : List ContainerSpec) (spec : ContainerSpec) (rest : List ContainerSpec)
    (hpre : ∀ s ∈ pre, s.Name ≠ container.Name) (hname : spec.Name = container.Name)
    (cTags : TagList) :
    addImageTags d cTags container (pre ++ spec :: rest) =
      addImageTags d cTags container [spec] := by
  induction pre with
  | nil => simp only [List.nil_append, addImageTags, if_pos hname]
  | cons s ss ih =>
    have hs : s.Name ≠ container.Name := hpre s (List.mem_cons_self _ _)
    simp only [List.cons_append, addImageTags, if_neg hs]
    exact ih (fun x hx => hpre x (List.mem_cons_of_mem _ hx))

/-- C16: the image tags of a status container come from the first spec entry
with its name only.  With that entry `spec` after the entries `pre` of other
names, the record of the container is the same whatever the later entries
`rest` are; and when the image of `spec` is not decomposed the image block adds
nothing, whatever the later entries. -/
theorem image_tags_first_match_only (d : Deps) (c : KubeletCollector) (pod : Pod)
    (container : ContainerStatus) (pre : List ContainerSpec) (spec : ContainerSpec)
    (rest rest2 : List ContainerSpec) (hc : container ∈ pod.Status.Containers)
    (hpre : ∀ s ∈ pre, s.Name ≠ container.Name) (hname : spec.Name = container.Name) :
    containerInfo d { pod with Spec := ⟨pre ++ spec :: rest⟩ }
        (podTags d c { pod with Spec := ⟨pre ++ spec :: rest⟩ }) container =
      containerInfo d { pod with Spec := ⟨pre ++ spec :: rest2⟩ }
        (podTags d c { pod with Spec := ⟨pre ++ spec :: rest2⟩ }) container ∧
    containerInfo d { pod with Spec := ⟨pre ++ spec :: rest⟩ }
        (podTags d c { pod with Spec := ⟨pre ++ spec :: rest⟩ }) container ∈
      (parsePods d c [{ pod with Spec := ⟨pre ++ spec :: rest⟩ }]).1 ∧
    containerInfo d { pod with Spec := ⟨pre ++ spec :: rest⟩ }
        (podTags d c { pod with Spec := ⟨pre ++ spec :: rest⟩ }) container ∈
      (parsePods d c [{ pod with Spec := ⟨pre ++ spec :: rest2⟩ }]).1 ∧
    ∀ e : String, d.SplitImageName spec.Image = Except.error e →
      ∀ cTags : TagList, addImageTags d cTags container (pre ++ spec :: rest) = cTags := by
  have heq : containerInfo d { pod with Spec := ⟨pre ++ spec :: rest⟩ }
        (podTags d c { pod with Spec := ⟨pre ++ spec :: rest⟩ }) container =
      containerInfo d { pod with Spec := ⟨pre ++ spec :: rest2⟩ }
        (podTags d c { pod with Spec := ⟨pre ++ spec :: rest2⟩ }) container := by
    simp only [containerInfo, containerTags, podTags, Pod.Owners,
      addImageTags_first_match d container pre spec _ hpre hname]
  refine ⟨heq, ?_, ?_, ?_⟩
  · exact containerInfo_mem_parsePods d c _ _ container (List.mem_singleton.2 rfl) hc
  · rw [heq]
    exact containerInfo_mem_parsePods d c _ _ container (List.mem_singleton.2 rfl) hc
  · intro e he cTags
    rw [addImageTags_first_match d container pre spec rest hpre hname]
    simp only [addImageTags, if_pos hname, he]

/-- Witness of C16 at `brokenImagePod`: the first entry named `web` has an image
that is refused, the second one the image `nginx:1.19`; the record of the
container is the one it has without the second entry, and has no image tag. -/
theorem image_tags_first_match_only_witness :
    sampleDeps.SplitImageName "" = Except.error "empty image" ∧
    sampleDeps.SplitImageName "nginx:1.19" = Except.ok ("nginx", "nginx", "1.19") ∧
    containerInfo sampleDeps brokenImagePod
        (podTags sampleDeps sampleCollector brokenImagePod) ⟨"web", "docker://c9"⟩ =
      containerInfo sampleDeps { brokenImagePod with Spec := ⟨[⟨"web", ""⟩]⟩ }
        (podTags sampleDeps sampleCollector { brokenImagePod with Spec := ⟨[⟨"web", ""⟩]⟩ })
        ⟨"web", "docker://c9"⟩ ∧
    (containerInfo sampleDeps brokenImagePod
        (podTags sampleDeps sampleCollector brokenImagePod)
        ⟨"web", "docker://c9"⟩).LowCardTags =
      ["kube_namespace:default", "kube_container_name:web"] :=
  ⟨rfl, rfl,
    (image_tags_first_match_only sampleDeps sampleCollector brokenImagePod
      ⟨"web", "docker://c9"⟩ [] ⟨"web", ""⟩ [⟨"web", "nginx:1.19"⟩] [] (by decide)
      (by decide) (by decide)).1,
    by decide⟩

/-! ## No state across pods (C17) -/

/-- C17: the records of `ps ++ qs` are the records of `ps` followed by the
records of `qs`, and the empty list of pods gives no record. -/
theorem parsePods_append (d : Deps) (c : KubeletCollector) (ps qs : List Pod) :
    (parsePods d c (ps ++ qs)).1 = (parsePods d c ps).1 ++ (parsePods d c qs).1 ∧
    (parsePods d c []).1 = [] := by
  constructor
  · rw [parsePods_eq, parsePods_eq, parsePods_eq, List.flatMap_append]
  · rfl

/-! ## Copy on branch (C18) -/

/-- The records of a single pod: the pod record when the UID is not empty, then
the records of the status containers. -/
theorem parsePods_singleton (d : Deps) (c : KubeletCollector) (pod : Pod) :
    (parsePods d c [pod]).1 =
      (if pod.Metadata.UID ≠ "" then [podInfo d pod (podTags d c pod)] else []) ++
        pod.Status.Containers.map (containerInfo d pod (podTags d c pod)) := by
  rw [parsePods_eq]
  simp [parsePod_eq]

/-- C18: (1) the pod part of the output, which is the output for the pod without
containers, is the same whatever the status and spec lists of the pod are; (2)
the record of a status container in the output for the pod is the record it has
when it is the only entry of the status list. -/
theorem copy_on_branch_non_interference (d : Deps) (c : KubeletCollector) (pod : Pod) :
    (∀ (st : Status) (sp : Spec),
      (parsePods d c [{ pod with Status := st, Spec := sp }]).1 =
        (parsePods d c [{ pod with Status := ⟨[]⟩, Spec := ⟨[]⟩ }]).1 ++
          st.Containers.map
            (containerInfo d { pod with Spec := sp } (podTags d c pod))) ∧
    (parsePods d c [{ pod with Status := ⟨[]⟩, Spec := ⟨[]⟩ }]).1 =
      (if pod.Metadata.UID ≠ "" then [podInfo d pod (podTags d c pod)] else []) ∧
    (∀ container : ContainerStatus,
      (parsePods d c [{ pod with Status := ⟨[container]⟩ }]).1 =
        (parsePods d c [{ pod with Status := ⟨[]⟩ }]).1 ++
          [containerInfo d pod (podTags d c pod) container]) ∧
    (parsePods d c [pod]).1 =
      (parsePods d c [{ pod with Status := ⟨[]⟩ }]).1 ++
        pod.Status.Containers.map (containerInfo d pod (podTags d c pod)) := by
  refine ⟨?_, ?_, ?_, ?_⟩
  · intro st sp
    rw [parsePods_singleton, parsePods_singleton]
    simp only [List.map_nil, List.append_nil]
    rfl
  · rw [parsePods_singleton]
    simp only [List.map_nil, List.append_nil]
    rfl
  · intro container
    rw [parsePods_singleton, parsePods_singleton]
    simp only [List.map_nil, List.append_nil, List.map_cons]
    rfl
  · rw [parsePods_singleton, parsePods_singleton]
    simp only [List.map_nil, List.append_nil]
    rfl

/-! ## Order, entities and source of the records (C19) -/

theorem addImageTags_no_container_id (d : Deps) (container : ContainerStatus)
    (specs : List ContainerSpec) (v : String) (card : Cardinality) :
    (⟨"container_id", v, card⟩ : Tag) ∉ (addImageTags d NewTagList container specs).tags := by
  rw [addImageTags_find]
  split
  · simp [NewTagList]
  · split
    · simp [NewTagList]
    · simp [NewTagList, TagList.AddLow]

/-- C19: the records of a pod come in this order: the pod record when the UID
is not empty, then one record per status container in the order of the status
list.  The entity of a container record is the status ID as it is, the only
`container_id` tag the container adds is High with the value
`TrimRuntimeFromCID` gives for that ID, and every record has the collector name
as its source. -/
theorem parsePods_order_entities_source (d : Deps) (c : KubeletCollector) (pods : List Pod) :
    (parsePods d c pods).1 =
      pods.flatMap (fun pod =>
        (if pod.Metadata.UID ≠ "" then [podInfo d pod (podTags d c pod)] else []) ++
          pod.Status.Containers.map (containerInfo d pod (podTags d c pod))) ∧
    (parsePods d c pods).1.map (fun r => r.Entity) =
      pods.flatMap (fun pod =>
        (if pod.Metadata.UID ≠ "" then [d.PodUIDToEntityName pod.Metadata.UID] else []) ++
          pod.Status.Containers.map (fun container => container.ID)) ∧
    (∀ r ∈ (parsePods d c pods).1, r.Source = d.kubeletCollectorName) ∧
    ∀ (pod : Pod) (container : ContainerStatus),
      (containerInfo d pod (podTags d c pod) container).Entity = container.ID ∧
      "container_id:" ++ d.TrimRuntimeFromCID container.ID ∈
        (containerInfo d pod (podTags d c pod) container).HighCardTags ∧
      ∀ (v : String) (card : Cardinality),
        (⟨"container_id", v, card⟩ : Tag) ∈ (containerTags d pod NewTagList container).tags ↔
          v = d.TrimRuntimeFromCID container.ID ∧ card = Cardinality.High := by
  have hshape : (parsePods d c pods).1 =
      pods.flatMap (fun pod =>
        (if pod.Metadata.UID ≠ "" then [podInfo d pod (podTags d c pod)] else []) ++
          pod.Status.Containers.map (containerInfo d pod (podTags d c pod))) := by
    rw [parsePods_eq]
    congr 1
    funext pod
    rw [parsePod_eq, List.nil_append]
  refine ⟨hshape, ?_, ?_, ?_⟩
  · rw [hshape, List.map_flatMap]
    congr 1
    funext pod
    rw [List.map_append, List.map_map]
    congr 1
    split <;> rfl
  · intro r hr
    obtain ⟨pod, _, hcase⟩ := mem_parsePods d c pods r hr
    rcases hcase with ⟨_, rfl⟩ | ⟨container, _, rfl⟩ <;> rfl
  · intro pod container
    refine ⟨rfl, ?_, ?_⟩
    · exact high_mem_Compute d.autoClass _ "container_id" _
        (container_id_mem_containerTags d pod _ container)
    · intro v card
      have himg := addImageTags_no_container_id d container pod.Spec.Containers v card
      simp only [NewTagList] at himg
      unfold containerTags
      simp only []
      rw [addImageTags_tags]
      split <;>
        simp [TagList.Copy, TagList.AddLow, TagList.AddHigh, NewTagList, himg, eq_comm]

/-- Witness of C19 at the pod of the spec example: the pod record comes first,
the entity of the container record keeps the prefix `docker://` and the
`container_id` tag has lost it. -/
theorem parsePods_order_entities_source_witness :
    (parsePods sampleDeps sampleCollector [nginxPod]).1.map (fun r => r.Entity) =
      ["kubernetes_pod://u1", "docker://c1"] ∧
    (parsePods sampleDeps sampleCollector [nginxPod]).1.map (fun r => r.Source) =
      ["kubelet", "kubelet"] ∧
    "container_id:c1" ∈
      (containerInfo sampleDeps nginxPod (podTags sampleDeps sampleCollector nginxPod)
        ⟨"web", "docker://c1"⟩).HighCardTags :=
  ⟨(parsePods_order_entities_source sampleDeps sampleCollector [nginxPod]).2.1,
    by decide,
    ((parsePods_order_entities_source sampleDeps sampleCollector [nginxPod]).2.2.2 nginxPod
      ⟨"web", "docker://c1"⟩).2.1⟩

/-! ## ReplicaSet names that start with a dash (C20) -/

theorem no_dash_of_alphabets (S : String)
    (halpha : (∀ ch ∈ S.data, ch ∈ Digits.data) ∨
      (∀ ch ∈ S.data, ch ∈ KubeAllowedEncodeStringAlphaNums.data)) : '-' ∉ S.data := by
  intro hmem
  rcases halpha with h | h
  · exact absurd (h _ hmem) (by decide)
  · exact absurd (h _ hmem) (by decide)

/-- C20: for a ReplicaSet name `"-" ++ S`, with `S` of at least 3 characters
made only of digits or only of characters of the reduced alphabet,
`parseDeploymentForReplicaset` returns the empty string, the owner adds
`kube_replica_set` as a Low tag and nothing else (no `kube_deployment`), and the
Low list of the pod has it.  For every name `n`, the ReplicaSet owner adds
`kube_replica_set:n` as Low exactly when `parseDeploymentForReplicaset n` is
empty. -/
theorem replicaSet_leading_dash (S : String) (hlen : 3 ≤ S.length)
    (halpha : (∀ ch ∈ S.data, ch ∈ Digits.data) ∨
      (∀ ch ∈ S.data, ch ∈ KubeAllowedEncodeStringAlphaNums.data)) :
    parseDeploymentForReplicaset ("-" ++ S) = "" ∧
    (∀ tags : TagList, addOwnerTags tags ⟨"ReplicaSet", "-" ++ S⟩ =
      tags.AddLow "kube_replica_set" ("-" ++ S)) ∧
    (∀ (d : Deps) (c : KubeletCollector) (pod : Pod),
      (⟨"ReplicaSet", "-" ++ S⟩ : PodOwner) ∈ pod.Owners →
        "kube_replica_set:" ++ ("-" ++ S) ∈ (podInfo d pod (podTags d c pod)).LowCardTags) ∧
    ∀ n : String,
      (⟨"kube_replica_set", n, Cardinality.Low⟩ : Tag) ∈
          (addOwnerTags NewTagList ⟨"ReplicaSet", n⟩).tags ↔
        parseDeploymentForReplicaset n = "" := by
  have hdash := no_dash_of_alphabets S halpha
  have hname : "-" ++ S = "" ++ "-" ++ S := by
    apply String.ext
    simp [String.data_append]
  have hparse : parseDeploymentForReplicaset ("-" ++ S) = "" := by
    rw [hname, parseDeploymentForReplicaset_split "" S hdash]
    have hlen3 : ¬ len S < 3 := by
      have := length_le_len S
      omega
    rw [if_neg hlen3]
    split <;> rfl
  have hstep : ∀ tags : TagList, addOwnerTags tags ⟨"ReplicaSet", "-" ++ S⟩ =
      tags.AddLow "kube_replica_set" ("-" ++ S) := by
    intro tags
    rw [addOwnerTags_ReplicaSet, if_neg (not_not.2 hparse)]
  refine ⟨hparse, hstep, ?_, ?_⟩
  · intro d c pod ho
    exact low_mem_Compute d.autoClass _ "kube_replica_set" _
      (owner_tags_mem_podTags d c pod _ ho _ (by rw [hstep]; simp [TagList.AddLow, NewTagList]))
  · intro n
    rw [addOwnerTags_ReplicaSet]
    by_cases h : parseDeploymentForReplicaset n = ""
    · rw [if_neg (not_not.2 h)]
      simp [TagList.AddLow, NewTagList, h]
    · rw [if_pos h]
      simp [TagList.AddLow, TagList.AddHigh, NewTagList, h]

/-- Witness of C20 at the name `-bcd` and the pod `dashPod`. -/
theorem replicaSet_leading_dash_witness :
    (3 ≤ "bcd".length ∧ ∀ ch ∈ "bcd".data, ch ∈ KubeAllowedEncodeStringAlphaNums.data) ∧
    parseDeploymentForReplicaset "-bcd" = "" ∧
    (parsePods sampleDeps sampleCollector [dashPod]).1 =
      [{ Source := "kubelet"
         Entity := "kubernetes_pod://u7"
         HighCardTags := ["pod_name:dash-x"]
         LowCardTags := ["kube_namespace:default", "kube_replica_set:-bcd"] }] ∧
    "kube_replica_set:-bcd" ∈
      (podInfo sampleDeps dashPod (podTags sampleDeps sampleCollector dashPod)).LowCardTags :=
  ⟨⟨by decide, by decide⟩,
    (replicaSet_leading_dash "bcd" (by decide) (Or.inr (by decide))).1,
    by decide,
    (replicaSet_leading_dash "bcd" (by decide) (Or.inr (by decide))).2.2.1 sampleDeps
      sampleCollector dashPod (by decide)⟩

end Kubelet

namespace Providers

/-! ## `EnvProvider.Collect` (C14) -/

/-- A string is cut by `TrimSpace` into leading white space, the result and
trailing white space; the result neither starts nor ends with white space. -/
theorem TrimSpace_decomp (s : String) :
    ∃ pre post : List Char,
      s.data = pre ++ (TrimSpace s).data ++ post ∧
      (∀ ch ∈ pre, IsSpace ch = true) ∧ (∀ ch ∈ post, IsSpace ch = true) ∧
      (∀ ch, (TrimSpace s).data.head? = some ch → IsSpace ch = false) ∧
      (∀ ch, (TrimSpace s).data.getLast? = some ch → IsSpace ch = false) := by
  have hT : (TrimSpace s).data =
      (List.dropWhile IsSpace (List.dropWhile IsSpace s.data).reverse).reverse := rfl
  have hm : (List.dropWhile IsSpace s.data) =
      (List.dropWhile IsSpace (List.dropWhile IsSpace s.data).reverse).reverse ++
        (List.takeWhile IsSpace (List.dropWhile IsSpace s.data).reverse).reverse := by
    rw [← List.reverse_append, List.takeWhile_append_dropWhile, List.reverse_reverse]
  have hlast : ∀ ch, (TrimSpace s).data.getLast? = some ch → IsSpace ch = false := by
    intro ch hch
    rw [hT, List.getLast?_reverse] at hch
    have h := List.head?_dropWhile_not IsSpace (List.dropWhile IsSpace s.data).reverse
    rw [hch] at h
    exact h
  have hhead : ∀ ch, (TrimSpace s).data.head? = some ch → IsSpace ch = false := by
    intro ch hch
    have hne : (TrimSpace s).data ≠ [] := by
      intro h
      rw [h] at hch
      exact absurd hch (by simp)
    have h := List.head?_dropWhile_not IsSpace s.data
    rw [hm, ← hT, List.head?_append_of_ne_nil _ hne, hch] at h
    exact h
  refine ⟨List.takeWhile IsSpace s.data,
    (List.takeWhile IsSpace (List.dropWhile IsSpace s.data).reverse).reverse, ?_, ?_, ?_,
    hhead, hlast⟩
  · rw [hT, List.append_assoc, ← hm, List.takeWhile_append_dropWhile]
  · exact fun ch hch => List.mem_takeWhile_imp hch
  · exact fun ch hch => List.mem_takeWhile_imp (List.mem_reverse.1 hch)

/-- The result of `TrimSpace` is empty exactly for the strings made of white
space only. -/
theorem TrimSpace_eq_empty_iff (s : String) :
    TrimSpace s = "" ↔ ∀ ch ∈ s.data, IsSpace ch = true := by
  have hT : (TrimSpace s).data =
      (List.dropWhile IsSpace (List.dropWhile IsSpace s.data).reverse).reverse := rfl
  constructor
  · intro h
    have hd : (TrimSpace s).data = [] := by rw [h]
    rw [hT, List.reverse_eq_nil_iff, List.dropWhile_eq_nil_iff] at hd
    have hm : ∀ ch ∈ List.dropWhile IsSpace s.data, IsSpace ch = true :=
      fun ch hch => hd ch (List.mem_reverse.2 hch)
    have hnil : List.dropWhile IsSpace s.data = [] := by
      cases hcase : List.dropWhile IsSpace s.data with
      | nil => rfl
      | cons x xs =>
        have h1 := List.head?_dropWhile_not IsSpace s.data
        rw [hcase] at h1 hm
        simp only [List.head?_cons] at h1
        have h2 := hm x (List.mem_cons_self _ _)
        rw [h1] at h2
        exact absurd h2 (by decide)
    exact List.dropWhile_eq_nil_iff.1 hnil
  · intro h
    apply String.ext
    rw [hT, List.dropWhile_eq_nil_iff.2 h]
    rfl

/-- The UTF-8 encoding of a character below 128 is the single byte of its
code. -/
theorem utf8EncodeChar_ascii (ch : Char) (h : ch.toNat < 128) :
    (String.utf8EncodeChar ch).map UInt8.toNat = [ch.toNat] := by
  have hv : ch.val ≤ 0x7f := by
    rw [UInt32.le_def, BitVec.le_def]
    have : ch.val.toNat < 128 := h
    show ch.val.toNat ≤ 127
    omega
  unfold String.utf8EncodeChar
  simp only [hv, if_true, List.map_cons, List.map_nil]
  have hmod : (ch.val.toUInt8).toNat = ch.val.toNat % 256 := by
    show (UInt8.ofNat ch.val.toNat).toNat = _
    rfl
  rw [hmod]
  have h2 : ch.val.toNat < 128 := h
  show [ch.val.toNat % 256] = [ch.val.toNat]
  rw [Nat.mod_eq_of_lt (by omega)]

/-- The embedding `bytes` of the conversion to a byte slice gives the bytes of
the UTF-8 encoding of the library. -/
theorem bytes_eq_toUTF8 (s : String) :
    bytes s = s.toUTF8.data.toList.map UInt8.toNat := by
  show s.data.flatMap (fun ch => (String.utf8EncodeChar ch).map UInt8.toNat) =
    (s.data.flatMap String.utf8EncodeChar).map UInt8.toNat
  rw [List.map_flatMap]

theorem bytes_length (s : String) : (bytes s).length = s.utf8ByteSize := by
  have hgo : ∀ cs : List Char,
      (cs.flatMap (fun ch => (String.utf8EncodeChar ch).map UInt8.toNat)).length =
        String.utf8ByteSize.go cs := by
    intro cs
    induction cs with
    | nil => rfl
    | cons x xs ih =>
      simp only [List.flatMap_cons, List.length_append, List.length_map,
        String.length_utf8EncodeChar, String.utf8ByteSize.go, ih]
      omega
  exact hgo s.data

theorem bytes_ascii (s : String) (h : ∀ ch ∈ s.data, ch.toNat < 128) :
    bytes s = s.data.map Char.toNat := by
  have hgo : ∀ cs : List Char, (∀ ch ∈ cs, ch.toNat < 128) →
      cs.flatMap (fun ch => (String.utf8EncodeChar ch).map UInt8.toNat) =
        cs.map Char.toNat := by
    intro cs hcs
    induction cs with
    | nil => rfl
    | cons x xs ih =>
      rw [List.flatMap_cons, utf8EncodeChar_ascii x (hcs x (List.mem_cons_self _ _)),
        ih (fun ch hch => hcs ch (List.mem_cons_of_mem _ hch))]
      rfl
  exact hgo s.data h

/-- C14: `Collect` returns no error.  With `s` the configured value of
`logs_config.custom_configs`, it returns no configuration when `s` is empty or
made of white space only, and otherwise exactly one configuration, of name
`dd_logs_config_custom_configs`, of provider `EnvironmentVariable`, whose
`LogsConfig` is the UTF-8 bytes of `TrimSpace s`: as many bytes as the byte
length of that string, and the character codes themselves when they are all
below 128.  `TrimSpace s` is `s` without its leading and trailing white
space. -/
theorem Collect_spec (e : EnvProvider) (env : Env) (s : String)
    (hs : env.GetString "logs_config.custom_configs" = s) :
    (e.Collect env).2 = none ∧
    ((∀ ch ∈ s.data, IsSpace ch = true) → (e.Collect env).1 = []) ∧
    (¬ (∀ ch ∈ s.data, IsSpace ch = true) →
      (e.Collect env).1 =
        [{ Name := "dd_logs_config_custom_configs"
           Provider := env.EnvironmentVariable
           LogsConfig := (TrimSpace s).toUTF8.data.toList.map UInt8.toNat }]) ∧
    ((TrimSpace s).toUTF8.data.toList.map UInt8.toNat).length = (TrimSpace s).utf8ByteSize ∧
    ((∀ ch ∈ (TrimSpace s).data, ch.toNat < 128) →
      (TrimSpace s).toUTF8.data.toList.map UInt8.toNat =
        (TrimSpace s).data.map Char.toNat) ∧
    ∃ pre post : List Char,
      s.data = pre ++ (TrimSpace s).data ++ post ∧
      (∀ ch ∈ pre, IsSpace ch = true) ∧ (∀ ch ∈ post, IsSpace ch = true) ∧
      (∀ ch, (TrimSpace s).data.head? = some ch → IsSpace ch = false) ∧
      (∀ ch, (TrimSpace s).data.getLast? = some ch → IsSpace ch = false) := by
  have hlen : Kubelet.len (TrimSpace s) = 0 ↔ ∀ ch ∈ s.data, IsSpace ch = true := by
    rw [← TrimSpace_eq_empty_iff]
    constructor
    · intro h
      by_contra hne
      have := (Kubelet.len_pos_iff _).2 hne
      omega
    · intro h
      rw [h]
      rfl
  refine ⟨?_, ?_, ?_, ?_, ?_, TrimSpace_decomp s⟩
  · unfold EnvProvider.Collect
    simp only []
    split <;> rfl
  · intro h
    unfold EnvProvider.Collect
    simp only [hs, if_pos (hlen.2 h)]
  · intro h
    unfold EnvProvider.Collect
    simp only [hs, if_neg (fun h0 => h (hlen.1 h0)), bytes_eq_toUTF8]
    rfl
  · rw [← bytes_eq_toUTF8]
    exact bytes_length _
  · intro h
    rw [← bytes_eq_toUTF8]
    exact bytes_ascii _ h

/-- Witness of C14: the value `  port: 10514  ` gives one configuration whose
`LogsConfig` is the eleven bytes of `port: 10514`, and a value of three spaces
gives none. -/
theorem Collect_spec_witness :
    (EnvProvider.mk.Collect sampleEnv).2 = none ∧
    TrimSpace "  port: 10514  " = "port: 10514" ∧
    (EnvProvider.mk.Collect sampleEnv).1 =
      [{ Name := "dd_logs_config_custom_configs"
         Provider := "environment"
         LogsConfig := [112, 111, 114, 116, 58, 32, 49, 48, 53, 49, 52] }] ∧
    (EnvProvider.mk.Collect blankEnv).1 = [] :=
  ⟨(Collect_spec EnvProvider.mk sampleEnv "  port: 10514  " rfl).1,
    by decide,
    ((Collect_spec EnvProvider.mk sampleEnv "  port: 10514  " rfl).2.2.1 (by decide)).trans
      (by decide),
    (Collect_spec EnvProvider.mk blankEnv "   " rfl).2.1 (by decide)⟩

end Providers
